import Mathlib

/-!
Verification of the accessibility-auto-fixer core: a shallow embedding of
the issue/fix data model (src/types.ts), the content-hash file cache
(src/utils/cache.ts), the HTML scanner (src/scanner/htmlScanner.ts), the
JSX scanner (src/scanner/jsxScanner.ts), the fix generator and fix
applicators (src/fixer/autoFixer.ts, src/fixer/astTransformer.ts), and the
per-file orchestration of AccessibilityAutoFixer.scanFiles (src/index.ts),
together with theorems settling the specification claims about them.

External collaborators (jsdom's HTML parser/serializer, the Babel
JS/TS parser) are not code of this repository; they are modelled
explicitly where their behaviour decides a claim (see jsdomParse and
serializeNode) or kept as function parameters where only their interface
matters (the JSX parse and transform steps).
-/

namespace A11y

/-! Data model, from src/types.ts. -/

/-- Severity of a detected issue ('error' | 'warning' | 'info'). -/
inductive Severity where
  | error
  | warning
  | info
deriving DecidableEq, Repr

/-- IssueType, the closed enumeration from src/types.ts. -/
inductive IssueType where
  | missingAltText
  | missingAriaLabel
  | missingFormLabel
  | invalidAriaAttribute
  | missingHeadingHierarchy
  | missingFocusIndicator
  | missingLandmark
  | colorContrast
  | missingButtonType
  | duplicateId
  | missingLangAttribute
  | missingSkipLink
  | invalidRole
  | missingKeyboardHandler
deriving DecidableEq, Repr

/-- FixType ('replace' | 'insert' | 'remove' | 'add-attribute'). -/
inductive FixType where
  | replace
  | insert
  | remove
  | addAttribute
deriving DecidableEq, Repr

/-- Fix.position from src/types.ts: line/column plus optional end span. -/
structure FixPosition where
  line : Nat
  column : Nat
  endLine : Option Nat := none
  endColumn : Option Nat := none
deriving DecidableEq, Repr

/-- Fix, the remediation descriptor from src/types.ts. -/
structure Fix where
  type : FixType
  description : String
  code : String
  position : FixPosition
deriving DecidableEq, Repr

/-- AccessibilityIssue from src/types.ts.  Line and column are the
best-effort location reported by a scanner. -/
structure AccessibilityIssue where
  type : IssueType
  severity : Severity
  message : String
  line : Nat
  column : Nat
  code : String
  fix : Option Fix := none
deriving DecidableEq, Repr

/-- ScanResult from src/types.ts: per-file issues plus fixed/total counts. -/
structure ScanResult where
  file : String
  issues : List AccessibilityIssue
  fixed : Nat
  total : Nat
deriving DecidableEq, Repr

/-- The autoFix block read by AutoFixer.generateFixForIssue
(config.autoFix.generateAriaLabels / wrapInputsWithLabels); an absent
field is JS undefined, modelled as none. -/
structure AutoFixConfig where
  generateAriaLabels : Option Bool := none
  wrapInputsWithLabels : Option Bool := none
deriving DecidableEq, Repr

/-- Config from src/types.ts (the fields the core reads); absent fields
are modelled as none and resolved by the consumers exactly where the
source applies its defaults. -/
structure Config where
  fix : Option Bool := none
  report : Option Bool := none
  autoFix : Option AutoFixConfig := none
deriving DecidableEq, Repr

/-! File cache, from src/utils/cache.ts.  The content digest
(crypto md5 in the source) is an external primitive, kept as a function
parameter hashContent; the in-memory Map is modelled as a lookup
function, and Date.now() as an explicit now argument. -/

/-- CacheEntry from src/utils/cache.ts. -/
structure CacheEntry where
  hash : String
  timestamp : Nat
  result : ScanResult
deriving Repr

/-- FileCache state: the enabled flag and the path-keyed entry map
(the cacheDir and on-disk persistence do not affect get/set results). -/
structure FileCache where
  enabled : Bool
  cache : String → Option CacheEntry

/-- FileCache.get: returns the cached result only when the stored hash
matches the hash of the current content; any other condition is a miss. -/
def FileCache.get (hashContent : String → String) (c : FileCache)
    (filePath content : String) : Option ScanResult :=
  if c.enabled then
    match c.cache filePath with
    | some cached =>
        if cached.hash = hashContent content then some cached.result else none
    | none => none
  else none

/-- FileCache.set: unconditionally overwrites the entry for the path with
the hash of the given content, the current time, and the result. -/
def FileCache.set (hashContent : String → String) (now : Nat) (c : FileCache)
    (filePath content : String) (result : ScanResult) : FileCache :=
  if c.enabled then
    { c with
      cache := fun p =>
        if p = filePath then
          some { hash := hashContent content, timestamp := now, result := result }
        else c.cache p }
  else c

/-- FileCache.cleanup: removes entries strictly older than maxAge. -/
def FileCache.cleanup (now : Nat) (maxAge : Nat) (c : FileCache) : FileCache :=
  { c with
    cache := fun p =>
      match c.cache p with
      | some entry => if now - entry.timestamp > maxAge then none else some entry
      | none => none }

/-! DOM document model.  The HTML scanner and the DOM fix applicator act
on the document tree produced by jsdom; the tree itself is modelled here
as elements (lower-case tag name, ordered attribute list, children) and
text nodes.  The document is represented by its documentElement (the
html root), as jsdom always synthesizes an html/head/body scaffold. -/

mutual
/-- DOM node: an element or a text node. -/
inductive Node where
  | elem (tag : String) (attrs : List (String × String)) (children : NodeList)
  | text (s : String)
deriving DecidableEq, Repr

/-- Children sequence of a DOM node. -/
inductive NodeList where
  | nil
  | cons (hd : Node) (tl : NodeList)
deriving DecidableEq, Repr
end

/-- Builds a NodeList from a plain list. -/
def NodeList.ofList : List Node → NodeList
  | [] => .nil
  | n :: ns => .cons n (NodeList.ofList ns)

/-- Element.tagName (empty for text nodes; tags are stored lower-case). -/
def Node.tagName : Node → String
  | .elem t _ _ => t
  | .text _ => ""

/-- Attribute list of a node (empty for text nodes). -/
def Node.attrs : Node → List (String × String)
  | .elem _ a _ => a
  | .text _ => []

/-- Presence of an attribute name in an attribute list
(Element.hasAttribute on the list). -/
def hasAttr (a : List (String × String)) (name : String) : Bool :=
  a.any (fun p => p.1 == name)

/-- Element.hasAttribute. -/
def Node.hasAttribute (n : Node) (name : String) : Bool :=
  hasAttr n.attrs name

/-- Element.getAttribute: the value of the first binding of the name,
none when the attribute is absent (null in the source). -/
def Node.getAttribute (n : Node) (name : String) : Option String :=
  (n.attrs.find? (fun p => p.1 == name)).map (fun p => p.2)

mutual
/-- Node.textContent: concatenated text of all descendant text nodes. -/
def Node.textContent : Node → String
  | .text s => s
  | .elem _ _ cs => textContentL cs

/-- Concatenated textContent of a children sequence. -/
def textContentL : NodeList → String
  | .nil => ""
  | .cons n ns => n.textContent ++ textContentL ns
end

/-- Whitespace characters for the JS String.prototype.trim model. -/
def jsWhitespace (c : Char) : Bool :=
  c == ' ' || c == '\t' || c == '\n' || c == '\r'

/-- Model of JS String.prototype.trim: strips leading and trailing
whitespace. -/
def jsTrim (s : String) : String :=
  String.mk (((s.toList.dropWhile jsWhitespace).reverse.dropWhile jsWhitespace).reverse)

mutual
/-- All element nodes of the subtree in document (pre-)order; this is the
order in which document.querySelectorAll returns matches. -/
def allElems : Node → List Node
  | .text _ => []
  | .elem t a cs => .elem t a cs :: allElemsL cs

/-- All element nodes under a children sequence, in document order. -/
def allElemsL : NodeList → List Node
  | .nil => []
  | .cons n ns => allElems n ++ allElemsL ns
end

/-- Attribute rewriting function applied to a tag/attribute pair. -/
abbrev AttrFn := String → List (String × String) → List (String × String)

mutual
/-- Applies an attribute rewrite to every element of the tree; this is
the shape of the querySelectorAll(..).forEach(setAttribute) mutations in
AutoFixer.applyFix. -/
def mapElems (f : AttrFn) : Node → Node
  | .text s => .text s
  | .elem t a cs => .elem t (f t a) (mapElemsL f cs)

/-- mapElems over a children sequence. -/
def mapElemsL (f : AttrFn) : NodeList → NodeList
  | .nil => .nil
  | .cons n ns => .cons (mapElems f n) (mapElemsL f ns)
end

/-! HTML scanner, from src/scanner/htmlScanner.ts.  The source's
getLineAndColumn is a best-effort approximation (it searches the
serialized document for the node's text); the spec states location
reporting is not a contract, so it is kept as an explicit parameter
loc of every check. -/

/-- Location oracle standing for HTMLScanner.getLineAndColumn. -/
abbrev Loc := Node → Nat × Nat

/-- Default location oracle used to instantiate concrete documents. -/
def locDefault : Loc := fun _ => (1, 1)

/-- HTMLScanner.getAttributesString: renders an attribute list as it
appears in a code snippet. -/
def getAttributesString (e : Node) : String :=
  e.attrs.foldl (fun acc p => acc ++ " " ++ p.1 ++ "=\"" ++ p.2 ++ "\"") ""

/-- HTMLScanner.getCodeSnippet: the opening tag for an element, the first
50 characters of text otherwise. -/
def getCodeSnippet (n : Node) : String :=
  match n with
  | .elem t _ _ => "<" ++ t ++ getAttributesString n ++ ">"
  | .text s => String.mk (s.toList.take 50)

/-- HTMLScanner.addIssue: assembles an issue for a node, with the default
code snippet when no explicit code is given. -/
def addIssue (loc : Loc) (ty : IssueType) (sev : Severity) (message : String)
    (node : Node) (code : Option String) : AccessibilityIssue :=
  { type := ty, severity := sev, message := message,
    line := (loc node).1, column := (loc node).2,
    code := code.getD (getCodeSnippet node), fix := none }

/-- HTMLScanner.checkMissingAltText: every img without an alt attribute is
an error (an empty alt is acceptable and not flagged). -/
def checkMissingAltText (loc : Loc) (document : Node) : List AccessibilityIssue :=
  ((allElems document).filter (fun e => e.tagName == "img")).filterMap (fun img =>
    if !(img.hasAttribute "alt") then
      some (addIssue loc .missingAltText .error "Image missing alt attribute" img
        (some ("<img src=\"" ++ (img.getAttribute "src").getD "null" ++ "\">")))
    else none)

/-- HTMLScanner.checkMissingAriaLabels: buttons and role=button elements
without aria-label/aria-labelledby and without non-empty text content. -/
def checkMissingAriaLabels (loc : Loc) (document : Node) : List AccessibilityIssue :=
  let interactiveElements := (allElems document).filter (fun e =>
    (e.tagName == "button" || e.getAttribute "role" == some "button")
    && !(e.hasAttribute "aria-label") && !(e.hasAttribute "aria-labelledby"))
  interactiveElements.filterMap (fun el =>
    let text := jsTrim el.textContent
    if text == "" && !(el.hasAttribute "aria-label") && !(el.hasAttribute "aria-labelledby") then
      some (addIssue loc .missingAriaLabel .warning
        "Interactive element missing aria-label or accessible text" el none)
    else none)

/-- HTMLScanner.checkMissingFormLabels: input/textarea/select without a
label referencing their id and without an aria-label, excluding
type=hidden inputs.  An empty id is falsy in the source and gives no
label association. -/
def checkMissingFormLabels (loc : Loc) (document : Node) : List AccessibilityIssue :=
  ((allElems document).filter (fun e => ["input", "textarea", "select"].contains e.tagName)).filterMap
    (fun input =>
      let hasLabel :=
        match input.getAttribute "id" with
        | some i => i != "" && (allElems document).any (fun l =>
            l.tagName == "label" && l.getAttribute "for" == some i)
        | none => false
      let hasAriaLabel := input.hasAttribute "aria-label" || input.hasAttribute "aria-labelledby"
      if !hasLabel && !hasAriaLabel && input.getAttribute "type" != some "hidden" then
        some (addIssue loc .missingFormLabel .error "Form input missing associated label" input none)
      else none)

/-- HTMLScanner.checkMissingButtonType: buttons without a type attribute. -/
def checkMissingButtonType (loc : Loc) (document : Node) : List AccessibilityIssue :=
  ((allElems document).filter (fun e => e.tagName == "button")).filterMap (fun button =>
    if !(button.hasAttribute "type") then
      some (addIssue loc .missingButtonType .warning
        "Button missing type attribute (should be \"button\", \"submit\", or \"reset\")" button none)
    else none)

/-- Distinct values of a list in first-occurrence order, with explicit
fuel (at least the list length) so that the recursion is structural. -/
def firstOccurAux : Nat → List String → List String
  | 0, _ => []
  | _ + 1, [] => []
  | fuel + 1, x :: xs => x :: firstOccurAux fuel (xs.filter (fun y => y != x))

/-- Distinct values of a list in first-occurrence order; this is the key
order of the source's Map built by insertion. -/
def firstOccur (l : List String) : List String :=
  firstOccurAux l.length l

/-- Message of a duplicate-id issue. -/
def dupIdMessage (idv : String) : String :=
  "Duplicate ID \"" ++ idv ++ "\" found"

/-- The [id] selector: all elements carrying an id attribute, in
document order. -/
def elementsWithIds (document : Node) : List Node :=
  (allElems document).filter (fun e => e.hasAttribute "id")

/-- Keys of the source's id map: the distinct non-empty id values in
first-insertion order (an empty id is falsy and skipped). -/
def dupIdKeys (document : Node) : List String :=
  firstOccur ((elementsWithIds document).filterMap (fun e =>
    match e.getAttribute "id" with
    | some i => if i != "" then some i else none
    | none => none))

/-- The id map's entry for one id value: the elements carrying it, in
document order. -/
def dupIdGroup (document : Node) (idv : String) : List Node :=
  (elementsWithIds document).filter (fun e => e.getAttribute "id" == some idv)

/-- Issues contributed by one id value: every element of a group with
more than one member is flagged. -/
def dupIdIssuesFor (loc : Loc) (document : Node) (idv : String) : List AccessibilityIssue :=
  if (dupIdGroup document idv).length > 1 then
    (dupIdGroup document idv).map (fun el =>
      addIssue loc .duplicateId .error (dupIdMessage idv) el none)
  else []

/-- HTMLScanner.checkDuplicateIds: groups the elements carrying an id
attribute by id value (empty ids are falsy in the source and skipped) and
flags every element of every group with more than one member. -/
def checkDuplicateIds (loc : Loc) (document : Node) : List AccessibilityIssue :=
  (dupIdKeys document).flatMap (dupIdIssuesFor loc document)

/-- HTMLScanner.checkMissingLang: the documentElement without a lang
attribute is an error. -/
def checkMissingLang (loc : Loc) (document : Node) : List AccessibilityIssue :=
  match document with
  | .elem t a cs =>
      if !(hasAttr a "lang") then
        [addIssue loc .missingLangAttribute .error "HTML element missing lang attribute"
          (.elem t a cs) none]
      else []
  | .text _ => []

/-- The six heading tag names matched by the scanner's selector. -/
def headingTags : List String := ["h1", "h2", "h3", "h4", "h5", "h6"]

/-- parseInt(tagName.charAt(1)) for a heading tag: the digit after h. -/
def headingLevel (t : String) : Nat :=
  (t.toList.getD 1 '0').toNat - 48

/-- All heading elements of the document in document order. -/
def headings (document : Node) : List Node :=
  (allElems document).filter (fun e => headingTags.contains e.tagName)

/-- Message of a missing-heading-hierarchy issue. -/
def hhMessage (level previousLevel : Nat) : String :=
  "Heading level " ++ toString level ++ " follows level " ++ toString previousLevel
    ++ " (should be " ++ toString (previousLevel + 1) ++ ")"

/-- Body of HTMLScanner.checkHeadingHierarchy: walks the headings with the
running previous-level counter (initially 0) and flags a heading whose
level exceeds the previous level by more than one, except when the
previous level is still 0 (the very first heading). -/
def hhIssues (loc : Loc) : Nat → List Node → List AccessibilityIssue
  | _, [] => []
  | previousLevel, heading :: rest =>
      let level := headingLevel heading.tagName
      if level > previousLevel + 1 && previousLevel > 0 then
        addIssue loc .missingHeadingHierarchy .warning (hhMessage level previousLevel)
            heading none
          :: hhIssues loc level rest
      else hhIssues loc level rest

/-- HTMLScanner.checkHeadingHierarchy. -/
def checkHeadingHierarchy (loc : Loc) (document : Node) : List AccessibilityIssue :=
  hhIssues loc 0 (headings document)

/-- HTMLScanner.checkMissingLandmarks: info issues for a missing main
landmark, and for a missing navigation landmark when the document has
more than 3 links; both are reported at document.body. -/
def checkMissingLandmarks (loc : Loc) (document : Node) : List AccessibilityIssue :=
  let hasMain := (allElems document).any (fun e =>
    e.tagName == "main" || e.getAttribute "role" == some "main")
  let hasNav := (allElems document).any (fun e =>
    e.tagName == "nav" || e.getAttribute "role" == some "navigation")
  let body := ((allElems document).find? (fun e => e.tagName == "body")).getD document
  (if !hasMain then
    [addIssue loc .missingLandmark .info "Document missing main landmark" body none]
  else [])
  ++ (if !hasNav && ((allElems document).filter (fun e => e.tagName == "a")).length > 3 then
    [addIssue loc .missingLandmark .info
      "Document with multiple links should have navigation landmark" body none]
  else [])

/-- The fixed valid-roles list shared by both scanners. -/
def validRoles : List String :=
  ["alert", "alertdialog", "application", "article", "banner", "button",
   "cell", "checkbox", "columnheader", "combobox", "complementary", "contentinfo",
   "definition", "dialog", "directory", "document", "feed", "figure", "form",
   "grid", "gridcell", "group", "heading", "img", "link", "list", "listbox",
   "listitem", "log", "main", "marquee", "math", "menu", "menubar", "menuitem",
   "menuitemcheckbox", "menuitemradio", "navigation", "none", "note", "option",
   "presentation", "progressbar", "radio", "radiogroup", "region", "row",
   "rowgroup", "rowheader", "scrollbar", "search", "searchbox", "separator",
   "slider", "spinbutton", "status", "switch", "tab", "table", "tablist",
   "tabpanel", "term", "textbox", "timer", "toolbar", "tooltip", "tree",
   "treegrid", "treeitem"]

/-- HTMLScanner.checkInvalidRoles: a non-empty role value outside the
valid-roles list is an error (an empty role is falsy and skipped). -/
def checkInvalidRoles (loc : Loc) (document : Node) : List AccessibilityIssue :=
  ((allElems document).filter (fun e => e.hasAttribute "role")).filterMap (fun el =>
    match el.getAttribute "role" with
    | some role =>
        if role != "" && !(validRoles.contains role) then
          some (addIssue loc .invalidRole .error ("Invalid ARIA role: \"" ++ role ++ "\"") el none)
        else none
    | none => none)

/-- HTMLScanner.scan: the fixed, ordered battery of checks. -/
def htmlScan (loc : Loc) (document : Node) : List AccessibilityIssue :=
  checkMissingAltText loc document
    ++ checkMissingAriaLabels loc document
    ++ checkMissingFormLabels loc document
    ++ checkMissingButtonType loc document
    ++ checkDuplicateIds loc document
    ++ checkMissingLang loc document
    ++ checkHeadingHierarchy loc document
    ++ checkMissingLandmarks loc document
    ++ checkInvalidRoles loc document

/-! Model of the external jsdom dependency used by HTMLScanner/AutoFixer.
Modelled from the spec: the scanners parse a standalone markup document
into a tree and the DOM fix applicator re-serializes it.  jsdom follows
the HTML5 parsing algorithm; this model covers the fragment of that
behaviour the repository's inputs exercise: lower-cased tags, double
quoted or bare attributes, void elements, and the synthesized
html/head/body scaffold around body content.  Inputs containing explicit
html/head/body tags, doctypes or character references are outside the
modelled fragment. -/

/-- Void (self-closing) HTML elements, serialized without an end tag. -/
def voidTags : List String :=
  ["area", "base", "br", "col", "embed", "hr", "img", "input",
   "link", "meta", "param", "source", "track", "wbr"]

/-- Serialization escaping for text nodes. -/
def escapeText (s : String) : String :=
  s.toList.foldl (fun acc c =>
    if c = '&' then acc ++ "&amp;"
    else if c = '<' then acc ++ "&lt;"
    else if c = '>' then acc ++ "&gt;"
    else acc.push c) ""

/-- Serialization escaping for attribute values. -/
def escapeAttrValue (s : String) : String :=
  s.toList.foldl (fun acc c =>
    if c = '&' then acc ++ "&amp;"
    else if c = '"' then acc ++ "&quot;"
    else acc.push c) ""

/-- Serialized form of an attribute list. -/
def serializeAttrs (a : List (String × String)) : String :=
  a.foldl (fun acc p => acc ++ " " ++ p.1 ++ "=\"" ++ escapeAttrValue p.2 ++ "\"") ""

mutual
/-- Serialization of a node (JSDOM.serialize on the documentElement). -/
def serializeNode : Node → String
  | .text s => escapeText s
  | .elem t a cs =>
      if voidTags.contains t then "<" ++ t ++ serializeAttrs a ++ ">"
      else "<" ++ t ++ serializeAttrs a ++ ">" ++ serializeChildren cs ++ "</" ++ t ++ ">"

/-- Serialization of a children sequence. -/
def serializeChildren : NodeList → String
  | .nil => ""
  | .cons n ns => serializeNode n ++ serializeChildren ns
end

/-- HTML tokens produced by the lexer of the jsdom model. -/
inductive HtmlToken where
  | openTag (tag : String) (attrs : List (String × String)) (selfClosing : Bool)
  | closeTag (tag : String)
  | textRun (s : String)
deriving DecidableEq, Repr

/-- Characters allowed in tag and attribute names. -/
def isNameChar (c : Char) : Bool :=
  c.isAlphanum || c == '-' || c == ':'

/-- Reads a name token and returns it lower-cased with the rest. -/
def lexName (cs : List Char) : String × List Char :=
  (String.mk ((cs.takeWhile isNameChar).map Char.toLower), cs.dropWhile isNameChar)

/-- Skips ASCII whitespace. -/
def skipWs (cs : List Char) : List Char :=
  cs.dropWhile (fun c => c == ' ' || c == '\t' || c == '\n' || c == '\r')

/-- Reads the attribute list of an open tag up to the closing bracket;
returns the attributes, whether the tag was self-closing, and the rest.
The fuel bounds the recursion and is at least the input length. -/
def lexAttrs : Nat → List Char → List (String × String) × Bool × List Char
  | 0, cs => ([], false, cs)
  | fuel + 1, cs =>
      match skipWs cs with
      | [] => ([], false, [])
      | '>' :: rest => ([], false, rest)
      | '/' :: '>' :: rest => ([], true, rest)
      | c :: rest =>
          if isNameChar c then
            let (name, cs1) := lexName (c :: rest)
            match skipWs cs1 with
            | '=' :: cs3 =>
                match skipWs cs3 with
                | '"' :: cs5 =>
                    let v := cs5.takeWhile (fun ch => !(ch == '"'))
                    let cs6 := (cs5.dropWhile (fun ch => !(ch == '"'))).drop 1
                    let (attrs, sc, rest') := lexAttrs fuel cs6
                    ((name, String.mk v) :: attrs, sc, rest')
                | cs4 =>
                    let v := cs4.takeWhile (fun ch =>
                      !(ch == ' ' || ch == '\t' || ch == '\n' || ch == '\r' || ch == '>'))
                    let cs5 := cs4.dropWhile (fun ch =>
                      !(ch == ' ' || ch == '\t' || ch == '\n' || ch == '\r' || ch == '>'))
                    let (attrs, sc, rest') := lexAttrs fuel cs5
                    ((name, String.mk v) :: attrs, sc, rest')
            | cs2 =>
                let (attrs, sc, rest') := lexAttrs fuel cs2
                ((name, "") :: attrs, sc, rest')
          else lexAttrs fuel rest

/-- Splits the raw input into tokens.  The fuel bounds the recursion and
is at least the input length. -/
def tokenizeHTML : Nat → List Char → List HtmlToken
  | 0, _ => []
  | fuel + 1, cs =>
      match cs with
      | [] => []
      | ['<'] => [.textRun "<"]
      | '<' :: '/' :: rest =>
          let (name, cs1) := lexName rest
          let cs2 := (cs1.dropWhile (fun c => !(c == '>'))).drop 1
          .closeTag name :: tokenizeHTML fuel cs2
      | '<' :: '!' :: rest =>
          tokenizeHTML fuel ((rest.dropWhile (fun c => !(c == '>'))).drop 1)
      | '<' :: c :: rest =>
          if isNameChar c then
            let (name, cs1) := lexName (c :: rest)
            let (attrs, selfClosing, cs2) := lexAttrs (cs1.length + 1) cs1
            .openTag name attrs selfClosing :: tokenizeHTML fuel cs2
          else .textRun "<" :: tokenizeHTML fuel (c :: rest)
      | _ =>
          .textRun (String.mk (cs.takeWhile (fun c => !(c == '<'))))
            :: tokenizeHTML fuel (cs.dropWhile (fun c => !(c == '<')))

/-- An element opened during tree construction, with the children
accumulated so far. -/
structure OpenFrame where
  tag : String
  attrs : List (String × String)
  children : List Node
deriving Repr

/-- Turns a finished frame into an element node. -/
def closeFrame (f : OpenFrame) : Node :=
  .elem f.tag f.attrs (NodeList.ofList f.children)

/-- Appends a finished node to the innermost open frame, or to the
top-level sequence when no frame is open. -/
def addChild : List OpenFrame → List Node → Node → List OpenFrame × List Node
  | [], tops, n => ([], tops ++ [n])
  | f :: fs, tops, n => ({ f with children := f.children ++ [n] } :: fs, tops)

/-- Closes open frames until one with the given tag has been closed; the
caller guarantees such a frame exists and passes the stack length as
fuel. -/
def popUntil (tag : String) : Nat → List OpenFrame → List Node → List OpenFrame × List Node
  | 0, st, tops => (st, tops)
  | fuel + 1, st, tops =>
      match st with
      | [] => ([], tops)
      | f :: fs =>
          let (st', tops') := addChild fs tops (closeFrame f)
          if f.tag == tag then (st', tops') else popUntil tag fuel st' tops'

/-- One step of the tree builder. -/
def buildStep (state : List OpenFrame × List Node) (tok : HtmlToken) :
    List OpenFrame × List Node :=
  let (st, tops) := state
  match tok with
  | .textRun s => if s == "" then (st, tops) else addChild st tops (.text s)
  | .openTag tag attrs selfClosing =>
      if voidTags.contains tag || selfClosing then addChild st tops (.elem tag attrs .nil)
      else ({ tag := tag, attrs := attrs, children := [] } :: st, tops)
  | .closeTag tag =>
      if st.any (fun f => f.tag == tag) then popUntil tag st.length st tops else (st, tops)

/-- Closes every frame still open when the input ends. -/
def flushStack : Nat → List OpenFrame → List Node → List Node
  | 0, _, tops => tops
  | fuel + 1, st, tops =>
      match st with
      | [] => tops
      | f :: fs =>
          let (st', tops') := addChild fs tops (closeFrame f)
          flushStack fuel st' tops'

/-- Parses raw markup into the top-level node sequence. -/
def parseFragment (s : String) : List Node :=
  let toks := tokenizeHTML (s.length + 1) s.toList
  let (st, tops) := toks.foldl buildStep ([], [])
  flushStack st.length st tops

/-- Model of new JSDOM(html): the parsed content becomes the body of the
synthesized html/head/body scaffold, and the result is represented by its
documentElement. -/
def jsdomParse (html : String) : Node :=
  .elem "html" []
    (.ofList [.elem "head" [] .nil, .elem "body" [] (.ofList (parseFragment html))])

/-! Fix generator and fix applicators, from src/fixer/autoFixer.ts. -/

/-- AutoFixer.generateFixForIssue: the pure mapping from an issue and the
autoFix configuration to an optional fix. -/
def generateFixForIssue (config : Config) (issue : AccessibilityIssue) : Option Fix :=
  let autoFixConfig := config.autoFix.getD {}
  match issue.type with
  | .missingAltText =>
      some { type := .addAttribute, description := "Add alt attribute to image",
             code := "alt=\"\"", position := { line := issue.line, column := issue.column } }
  | .missingButtonType =>
      some { type := .addAttribute, description := "Add type=\"button\" to button",
             code := "type=\"button\"", position := { line := issue.line, column := issue.column } }
  | .missingLangAttribute =>
      some { type := .addAttribute, description := "Add lang attribute to html element",
             code := "lang=\"en\"", position := { line := issue.line, column := issue.column } }
  | .missingAriaLabel =>
      if autoFixConfig.generateAriaLabels ≠ some false then
        some { type := .addAttribute, description := "Add aria-label attribute",
               code := "aria-label=\"Interactive element\"",
               position := { line := issue.line, column := issue.column } }
      else none
  | .missingFormLabel =>
      if autoFixConfig.wrapInputsWithLabels ≠ some false then
        some { type := .addAttribute, description := "Add aria-label to input",
               code := "aria-label=\"Input field\"",
               position := { line := issue.line, column := issue.column } }
      else none
  | .duplicateId => none
  | _ => none

/-- AutoFixer.generateFixes: attaches the generated fix to every issue. -/
def generateFixes (config : Config) (issues : List AccessibilityIssue) :
    List AccessibilityIssue :=
  issues.map (fun issue => { issue with fix := generateFixForIssue config issue })

/-- The img mutation of AutoFixer.applyFix: setAttribute('alt', '') on
every img that has no alt attribute. -/
def altFixAttr : AttrFn := fun t a =>
  if t == "img" && !(hasAttr a "alt") then a ++ [("alt", "")] else a

/-- The button mutation of AutoFixer.applyFix: setAttribute('type',
'button') on every button that has no type attribute. -/
def typeFixAttr : AttrFn := fun t a =>
  if t == "button" && !(hasAttr a "type") then a ++ [("type", "button")] else a

/-- The documentElement mutation of AutoFixer.applyFix:
setAttribute('lang', 'en') on the root unless already present. -/
def langFixRoot : Node → Node
  | .elem t a cs =>
      if !(hasAttr a "lang") then .elem t (a ++ [("lang", "en")]) cs else .elem t a cs
  | .text s => .text s

/-- AutoFixer.applyFix: the DOM mutation for one issue.  The fix argument
is ignored by the source as well; the mutation is keyed on the issue
type and saturates the whole document (all imgs / all buttons / the
documentElement), guarded by attribute presence. -/
def applyFix (document : Node) (issue : AccessibilityIssue) (_fix : Fix) : Node :=
  match issue.type with
  | .missingAltText => mapElems altFixAttr document
  | .missingButtonType => mapElems typeFixAttr document
  | .missingLangAttribute => langFixRoot document
  | _ => document

/-- The fix loop of AutoFixer.fixHTML on the parsed document: issues
without an attached fix are skipped. -/
def fixHTMLDom (document : Node) (issues : List AccessibilityIssue) : Node :=
  issues.foldl (fun d issue =>
    match issue.fix with
    | some f => applyFix d issue f
    | none => d) document

/-- AutoFixer.fixHTML: parses the input, applies the attached fixes, and
returns the serialization of the resulting document. -/
def fixHTML (html : String) (issues : List AccessibilityIssue) : String :=
  serializeNode (fixHTMLDom (jsdomParse html) issues)

/-- AutoFixer.fixJSX: filters the fixable issues and returns the input
unchanged when none remain; otherwise delegates to the AST transformer,
kept as the parameter transformJSX (its Babel parse/regenerate internals
are external; the legacy textual fallback is reached only when the
transformer throws). -/
def fixJSX (transformJSX : String → List AccessibilityIssue → String)
    (code : String) (issues : List AccessibilityIssue) : String :=
  let fixableIssues := issues.filter (fun i => i.fix.isSome)
  if fixableIssues.isEmpty then code else transformJSX code fixableIssues

/-! JSX scanner, from src/scanner/jsxScanner.ts.  The Babel parser is an
external dependency: scanning is parameterized by the parse outcome
(none models a parse exception, caught by the scanner).  JSX element
nodes carry the tag name computed by getTagName, the source location
from Babel, the syntax-level attribute items, and the children. -/

/-- Value of a JSXAttribute: a string literal, or any non-literal value
(expression container etc.). -/
inductive JSXAttrValue where
  | strLit (s : String)
  | exprVal
deriving DecidableEq, Repr

/-- An entry of a JSX opening element's attribute list: a JSXAttribute
with identifier name and optional value, or a JSXSpreadAttribute. -/
inductive JSXAttrItem where
  | attr (name : String) (value : Option JSXAttrValue)
  | spread
deriving DecidableEq, Repr

mutual
/-- JSX tree node: an element, a JSXText run, or an expression child. -/
inductive JSXNode where
  | elem (tag : String) (line col : Nat) (attrs : List JSXAttrItem) (children : JSXNodeList)
  | jsxText (s : String)
  | exprChild
deriving DecidableEq, Repr

/-- Children sequence of a JSX element. -/
inductive JSXNodeList where
  | nil
  | cons (hd : JSXNode) (tl : JSXNodeList)
deriving DecidableEq, Repr
end

/-- JSXScanner.hasAttribute: a JSXAttribute with the given identifier
name is present (spread attributes never match). -/
def hasAttributeJSX (attrs : List JSXAttrItem) (name : String) : Bool :=
  attrs.any (fun item =>
    match item with
    | .attr n _ => n == name
    | .spread => false)

/-- JSXScanner.getAttribute: the first JSXAttribute with the name. -/
def getAttributeJSX (attrs : List JSXAttrItem) (name : String) : Option JSXAttrItem :=
  attrs.find? (fun item =>
    match item with
    | .attr n _ => n == name
    | .spread => false)

/-- Line of a node's Babel location (1 when absent). -/
def JSXNode.locLine : JSXNode → Nat
  | .elem _ l _ _ _ => l
  | _ => 1

/-- Column of a node's Babel location (0 when absent; issue columns add 1). -/
def JSXNode.locCol : JSXNode → Nat
  | .elem _ _ c _ _ => c
  | _ => 0

/-- Code-snippet oracle standing for JSXScanner.getCodeSnippet, which
slices the raw source lines at the node's location. -/
abbrev Snip := JSXNode → String

/-- JSXScanner.addIssue. -/
def addIssueJSX (snip : Snip) (ty : IssueType) (sev : Severity) (message : String)
    (node : JSXNode) : AccessibilityIssue :=
  { type := ty, severity := sev, message := message,
    line := node.locLine, column := node.locCol + 1,
    code := snip node, fix := none }

mutual
/-- JSXScanner.hasTextContent: some child is a JSXText with non-empty
trimmed value, or a JSX element that itself has text content. -/
def hasTextContent : JSXNode → Bool
  | .elem _ _ _ _ cs => hasTextContentL cs
  | _ => false

/-- hasTextContent over a children sequence. -/
def hasTextContentL : JSXNodeList → Bool
  | .nil => false
  | .cons c cs =>
      (match c with
       | .jsxText s => (jsTrim s).length > 0
       | .elem t l co a cc => hasTextContent (.elem t l co a cc)
       | .exprChild => false) || hasTextContentL cs
end

/-- JSXScanner.hasClickHandler. -/
def hasClickHandler (attrs : List JSXAttrItem) : Bool :=
  hasAttributeJSX attrs "onClick" || hasAttributeJSX attrs "onMouseDown"
    || hasAttributeJSX attrs "onMouseUp"

/-- JSXScanner.findLabelInScope: the source walks `path.parent` and then
`current.parent`, but those are plain AST nodes without `.node` or
`.parent` fields, so the loop never observes a JSX element and the
function returns false on every input. -/
def findLabelInScope (_parent : Option JSXNode) : Bool :=
  false

/-- JSXScanner.findDuplicateIds: the source's simplified implementation
returns an empty array on every input. -/
def findDuplicateIds (_path : JSXNode) (_idValue : String) : List JSXNode :=
  []

/-- JSXScanner.checkImageAlt. -/
def checkImageAlt (snip : Snip) (node : JSXNode) (attrs : List JSXAttrItem) :
    List AccessibilityIssue :=
  if !(hasAttributeJSX attrs "alt") then
    [addIssueJSX snip .missingAltText .error "Image missing alt attribute" node]
  else []

/-- JSXScanner.checkAriaLabel: interactive elements (button, a,
role=button, or div/span with a click handler) without an aria label and
without literal text content. -/
def checkAriaLabel (snip : Snip) (node : JSXNode) (attrs : List JSXAttrItem)
    (tagName : String) : List AccessibilityIssue :=
  let hasAriaLabel := hasAttributeJSX attrs "aria-label"
  let hasAriaLabelledBy := hasAttributeJSX attrs "aria-labelledby"
  let hasText := hasTextContent node
  let role : Option String :=
    match getAttributeJSX attrs "role" with
    | some (.attr _ (some (.strLit s))) => some s
    | _ => none
  let isInteractive := tagName == "button" || tagName == "a" || role == some "button"
    || ((tagName == "div" || tagName == "span") && hasClickHandler attrs)
  if isInteractive && !hasAriaLabel && !hasAriaLabelledBy && !hasText then
    [addIssueJSX snip .missingAriaLabel .warning
      "Interactive element missing aria-label or accessible text" node]
  else []

/-- JSXScanner.checkButtonType. -/
def checkButtonTypeJSX (snip : Snip) (node : JSXNode) (attrs : List JSXAttrItem) :
    List AccessibilityIssue :=
  if !(hasAttributeJSX attrs "type") then
    [addIssueJSX snip .missingButtonType .warning "Button missing type attribute" node]
  else []

/-- JSXScanner.checkFormLabel. -/
def checkFormLabelJSX (snip : Snip) (parent : Option JSXNode) (node : JSXNode)
    (attrs : List JSXAttrItem) : List AccessibilityIssue :=
  let hasAriaLabel := hasAttributeJSX attrs "aria-label"
  let hasAriaLabelledBy := hasAttributeJSX attrs "aria-labelledby"
  if !hasAriaLabel && !hasAriaLabelledBy then
    if !(findLabelInScope parent) then
      [addIssueJSX snip .missingFormLabel .error "Form input missing associated label" node]
    else []
  else []

/-- JSXScanner.checkDuplicateId: only fires when the scope search finds
more than one occurrence; findDuplicateIds always returns an empty list. -/
def checkDuplicateIdJSX (snip : Snip) (node : JSXNode) (attrs : List JSXAttrItem) :
    List AccessibilityIssue :=
  match getAttributeJSX attrs "id" with
  | some (.attr _ (some (.strLit idValue))) =>
      let duplicates := findDuplicateIds node idValue
      if duplicates.length > 1 then
        [addIssueJSX snip .duplicateId .error (dupIdMessage idValue) node]
      else []
  | _ => []

/-- JSXScanner.checkHeadingHierarchy: the simplified JSX version flags
only a heading level above 6. -/
def checkHeadingHierarchyJSX (snip : Snip) (node : JSXNode) (tagName : String) :
    List AccessibilityIssue :=
  let level := headingLevel tagName
  if level > 6 then
    [addIssueJSX snip .missingHeadingHierarchy .warning
      ("Invalid heading level: " ++ tagName) node]
  else []

/-- JSXScanner.checkInvalidRole: a string-literal role outside the
valid-roles list (non-literal role values are not checked). -/
def checkInvalidRoleJSX (snip : Snip) (node : JSXNode) (attrs : List JSXAttrItem) :
    List AccessibilityIssue :=
  match getAttributeJSX attrs "role" with
  | some (.attr _ (some (.strLit role))) =>
      if !(validRoles.contains role) then
        [addIssueJSX snip .invalidRole .error ("Invalid ARIA role: \"" ++ role ++ "\"") node]
      else []
  | _ => []

/-- JSXScanner.checkJSXElement: the per-element battery, in source order. -/
def checkJSXElement (snip : Snip) (parent : Option JSXNode) (node : JSXNode)
    (attrs : List JSXAttrItem) (tagName : String) : List AccessibilityIssue :=
  (if tagName == "img" then checkImageAlt snip node attrs else [])
    ++ (if ["button", "div", "span", "a"].contains tagName then
          checkAriaLabel snip node attrs tagName
        else [])
    ++ (if tagName == "button" then checkButtonTypeJSX snip node attrs else [])
    ++ (if ["input", "textarea", "select"].contains tagName then
          checkFormLabelJSX snip parent node attrs
        else [])
    ++ checkDuplicateIdJSX snip node attrs
    ++ (if headingTags.contains tagName then checkHeadingHierarchyJSX snip node tagName else [])
    ++ checkInvalidRoleJSX snip node attrs

mutual
/-- The traverse visitor: checkJSXElement on every JSX element in tree
order, with the enclosing node as parent. -/
def jsxVisit (snip : Snip) (parent : Option JSXNode) : JSXNode → List AccessibilityIssue
  | .jsxText _ => []
  | .exprChild => []
  | .elem t l c a cs =>
      checkJSXElement snip parent (.elem t l c a cs) a t
        ++ jsxVisitL snip (some (.elem t l c a cs)) cs

/-- jsxVisit over a children sequence. -/
def jsxVisitL (snip : Snip) (parent : Option JSXNode) : JSXNodeList → List AccessibilityIssue
  | .nil => []
  | .cons n ns => jsxVisit snip parent n ++ jsxVisitL snip parent ns
end

/-- JSXScanner.scan: Babel parsing is the external parameter parse; a
parse exception (none) is caught and surfaced as an empty issue list,
otherwise every JSX element of the parsed roots is visited. -/
def jsxScan (parse : String → Option (List JSXNode)) (snip : Snip) (code : String) :
    List AccessibilityIssue :=
  match parse code with
  | some roots => roots.flatMap (jsxVisit snip none)
  | none => []

/-! AST transformer, from src/fixer/astTransformer.ts: the per-element
attribute mutations (the surrounding Babel parse/regenerate round trip is
external). -/

/-- ASTTransformer.extractTextContent: concatenated trimmed JSXText
children of the enclosing element. -/
def extractTextContent (parentChildren : List JSXNode) : String :=
  parentChildren.foldl (fun acc c =>
    match c with
    | .jsxText s => acc ++ jsTrim s
    | _ => acc) ""

/-- ASTTransformer.generateDefaultLabel. -/
def generateDefaultLabel (tagName : String) : String :=
  if tagName == "button" then "Button"
  else if tagName == "a" then "Link"
  else if tagName == "input" then "Input field"
  else if tagName == "select" then "Select option"
  else if tagName == "textarea" then "Text area"
  else if tagName == "div" then "Interactive element"
  else "Interactive element"

/-- ASTTransformer.addAltAttribute: pushes alt="" unless an alt
attribute is already present. -/
def addAltAttribute (attributes : List JSXAttrItem) : List JSXAttrItem :=
  let hasAlt := attributes.any (fun item =>
    match item with
    | .attr n _ => n == "alt"
    | .spread => false)
  if !hasAlt then attributes ++ [.attr "alt" (some (.strLit ""))] else attributes

/-- ASTTransformer.addButtonType: pushes type="button" unless a type
attribute is already present. -/
def addButtonType (attributes : List JSXAttrItem) : List JSXAttrItem :=
  let hasType := attributes.any (fun item =>
    match item with
    | .attr n _ => n == "type"
    | .spread => false)
  if !hasType then attributes ++ [.attr "type" (some (.strLit "button"))] else attributes

/-- ASTTransformer.addAriaLabel: pushes an aria-label derived from the
enclosing element's text content (or the per-tag default) unless an
aria-label or aria-labelledby attribute is already present. -/
def addAriaLabel (parentChildren : List JSXNode) (tagName : String)
    (attributes : List JSXAttrItem) : List JSXAttrItem :=
  let hasAriaLabel := attributes.any (fun item =>
    match item with
    | .attr n _ => n == "aria-label" || n == "aria-labelledby"
    | .spread => false)
  if !hasAriaLabel then
    let textContent := extractTextContent parentChildren
    let label := if textContent == "" then generateDefaultLabel tagName else textContent
    attributes ++ [.attr "aria-label" (some (.strLit label))]
  else attributes

/-- ASTTransformer.addFormLabel: pushes aria-label="Input field" unless
an aria-label, aria-labelledby or id attribute is already present. -/
def addFormLabel (attributes : List JSXAttrItem) : List JSXAttrItem :=
  let hasLabel := attributes.any (fun item =>
    match item with
    | .attr n _ => n == "aria-label" || n == "aria-labelledby" || n == "id"
    | .spread => false)
  if !hasLabel then attributes ++ [.attr "aria-label" (some (.strLit "Input field"))]
  else attributes

/-! Per-file orchestration, from AccessibilityAutoFixer.scanFiles in
src/index.ts.  File reading/writing and glob resolution are external;
the model captures the processing of one file's content: scan by file
kind, generate fixes (the orchestrator's AutoFixer is constructed with
the default config), optionally apply and write back. -/

/-- File kind as decided by isHTMLFile/isJSXFile on the path. -/
inductive FileKind where
  | html
  | jsx
  | other
deriving DecidableEq, Repr

/-- AccessibilityAutoFixer.scanFile: dispatch to the scanner for the
file kind; unscannable kinds yield no issues. -/
def scanFileByKind (loc : Loc) (jsxParse : String → Option (List JSXNode)) (snip : Snip)
    (kind : FileKind) (content : String) : List AccessibilityIssue :=
  match kind with
  | .html => htmlScan loc (jsdomParse content)
  | .jsx => jsxScan jsxParse snip content
  | .other => []

/-- Outcome of processing one file: the assembled ScanResult, the final
content, and whether a write-back happened. -/
structure ProcessOutcome where
  result : ScanResult
  output : String
  wrote : Bool
deriving DecidableEq, Repr

/-- The per-file body of AccessibilityAutoFixer.scanFiles: scan, attach
generated fixes, and when fixing is enabled and fixable issues exist,
apply the strategy for the file kind and write back only if the output
differs from the input, reporting fixableIssues.length as the fixed
count in exactly that case. -/
def processFile (loc : Loc) (jsxParse : String → Option (List JSXNode)) (snip : Snip)
    (transformJSX : String → List AccessibilityIssue → String) (config : Config)
    (kind : FileKind) (file content : String) : ProcessOutcome :=
  let issues := scanFileByKind loc jsxParse snip kind content
  let issuesWithFixes := generateFixes {} issues
  let fixableIssues := issuesWithFixes.filter (fun i => i.fix.isSome)
  let fixActive := config.fix.getD false && !fixableIssues.isEmpty
  let fixedContent :=
    if fixActive then
      match kind with
      | .html => fixHTML content fixableIssues
      | .jsx => fixJSX transformJSX content fixableIssues
      | .other => content
    else content
  let wrote := fixActive && fixedContent != content
  let fixedCount := if wrote then fixableIssues.length else 0
  { result := { file := file, issues := issuesWithFixes,
                fixed := fixedCount, total := issues.length },
    output := fixedContent, wrote := wrote }

/-- Modelled from the spec: "report the number of fixes actually applied
(not merely generated)" — the number of attached fixes whose application
step changes the document during the DOM fix loop. -/
def appliedFixCount (document : Node) (issues : List AccessibilityIssue) : Nat :=
  (issues.foldl (fun st issue =>
    match issue.fix with
    | some f =>
        let d := applyFix st.1 issue f
        (d, st.2 + (if d = st.1 then 0 else 1))
    | none => st) (document, 0)).2

/-! Specification-side definitions and concrete documents used by the
claim theorems. -/

/-- Formulation of the heading-hierarchy rule in the spec's words: a
heading is flagged exactly when it has an immediately preceding heading
whose level it exceeds by more than one; the first heading (no
predecessor) is never flagged.  To be compared with
checkHeadingHierarchy, which uses the running previous-level counter. -/
def specHeadingIssues (loc : Loc) (hs : List Node) : List AccessibilityIssue :=
  (hs.zip (none :: hs.map some)).filterMap (fun p =>
    match p.2 with
    | none => none
    | some prev =>
        if headingLevel p.1.tagName > headingLevel prev.tagName + 1 then
          some (addIssue loc .missingHeadingHierarchy .warning
            (hhMessage (headingLevel p.1.tagName) (headingLevel prev.tagName)) p.1 none)
        else none)

/-- Saturation state reached by applying the DOM fix for an issue type:
after the alt fix every img has alt, after the type fix every button has
type, after the lang fix the documentElement has lang; other issue types
have no DOM applicator. -/
def FixedFor (ty : IssueType) (document : Node) : Prop :=
  match ty with
  | .missingAltText =>
      ∀ e ∈ allElems document, e.tagName = "img" → e.hasAttribute "alt" = true
  | .missingButtonType =>
      ∀ e ∈ allElems document, e.tagName = "button" → e.hasAttribute "type" = true
  | .missingLangAttribute =>
      match document with
      | .elem _ a _ => hasAttr a "lang" = true
      | .text _ => True
  | _ => True

/-- Sample result used to instantiate the cache theorem. -/
def sampleScanResult : ScanResult :=
  { file := "a.html", issues := [], fixed := 0, total := 0 }

/-- Fresh enabled cache used to instantiate the cache theorem. -/
def sampleCache : FileCache :=
  { enabled := true, cache := fun _ => none }

/-- Document whose headings are h1 then h3 (a skipped level). -/
def docH1H3 : Node :=
  .elem "html" [("lang", "en")]
    (.ofList [.elem "head" [] .nil,
      .elem "body" []
        (.ofList [.elem "h1" [] (.ofList [.text "Title"]),
          .elem "h3" [] (.ofList [.text "Section"])])])

/-- Document whose headings are h1, h2, h3 (no skipped level). -/
def docH123 : Node :=
  .elem "html" [("lang", "en")]
    (.ofList [.elem "head" [] .nil,
      .elem "body" []
        (.ofList [.elem "h1" [] (.ofList [.text "Title"]),
          .elem "h2" [] (.ofList [.text "Part"]),
          .elem "h3" [] (.ofList [.text "Section"])])])

/-- Document with two elements sharing the empty id value. -/
def docEmptyIds : Node :=
  .elem "html" []
    (.ofList [.elem "head" [] .nil,
      .elem "body" []
        (.ofList [.elem "div" [("id", "")] .nil, .elem "div" [("id", "")] .nil])])

/-- Document with two elements sharing the id value x. -/
def docTwoIds : Node :=
  .elem "html" []
    (.ofList [.elem "head" [] .nil,
      .elem "body" []
        (.ofList [.elem "div" [("id", "x")] .nil, .elem "div" [("id", "x")] .nil])])

/-- Content of the overcounting scenario: one button, no attributes. -/
def buttonHTML : String := "<button></button>"

/-- Fixable issues generated for buttonHTML: the aria-label, button-type
and lang fixes (the missing-landmark info issue gets no fix). -/
def buttonFixable : List AccessibilityIssue :=
  (generateFixes {} (htmlScan locDefault (jsdomParse buttonHTML))).filter
    (fun i => i.fix.isSome)

/-- Outcome of processing buttonHTML as an HTML file with fixing enabled. -/
def buttonOutcome : ProcessOutcome :=
  processFile locDefault (fun _ => none) (fun _ => "") (fun c _ => c)
    { fix := some true } .html "file.html" buttonHTML

/-- Sample missing-lang issue used to instantiate the idempotence
theorem. -/
def sampleLangIssue : AccessibilityIssue :=
  { type := .missingLangAttribute, severity := .error,
    message := "HTML element missing lang attribute", line := 1, column := 1,
    code := "<html>", fix := none }

/-- Sample lang fix used to instantiate the idempotence theorem. -/
def sampleLangFix : Fix :=
  { type := .addAttribute, description := "Add lang attribute to html element",
    code := "lang=\"en\"", position := { line := 1, column := 1 } }

/-- Predicate picking out the duplicate-id error issues reported for a
given id value. -/
def qdup (v : String) (i : AccessibilityIssue) : Bool :=
  i.type == IssueType.duplicateId && i.severity == Severity.error
    && i.message == dupIdMessage v

/-! Theorems settling the claims. -/

/-- C1: for every file path, content and scan result, set followed by
get with unchanged content on an operational (enabled) cache returns the
stored result, and get with any content whose hash differs returns
none. -/
theorem cache_set_then_get (hashContent : String → String) (now : Nat) (c : FileCache)
    (filePath content : String) (result : ScanResult) (henabled : c.enabled = true) :
    FileCache.get hashContent
        (FileCache.set hashContent now c filePath content result) filePath content
      = some result
    ∧ ∀ content' : String, hashContent content' ≠ hashContent content →
        FileCache.get hashContent
            (FileCache.set hashContent now c filePath content result) filePath content'
          = none := by
  constructor
  · simp [FileCache.get, FileCache.set, henabled]
  · intro content' hne
    simp [FileCache.get, FileCache.set, henabled]
    exact fun h => hne h.symm

/-- Witness for cache_set_then_get at a concrete cache, path, content and
result. -/
theorem cache_set_then_get_witness :
    FileCache.get (fun s => s)
        (FileCache.set (fun s => s) 0 sampleCache "a.html" "<p></p>" sampleScanResult)
        "a.html" "<p></p>"
      = some sampleScanResult
    ∧ ∀ content' : String, (fun s : String => s) content' ≠ (fun s : String => s) "<p></p>" →
        FileCache.get (fun s => s)
            (FileCache.set (fun s => s) 0 sampleCache "a.html" "<p></p>" sampleScanResult)
            "a.html" content'
          = none :=
  cache_set_then_get (fun s => s) 0 sampleCache "a.html" "<p></p>" sampleScanResult rfl

/-- C6: when parsing fails, JSXScanner.scan returns an empty issue list
(the exception is caught; nothing propagates). -/
theorem jsx_scan_parse_failure_empty (parse : String → Option (List JSXNode))
    (snip : Snip) (code : String) (h : parse code = none) :
    jsxScan parse snip code = [] := by
  simp [jsxScan, h]

/-- Witness for jsx_scan_parse_failure_empty at a concrete failing parse
and input. -/
theorem jsx_scan_parse_failure_empty_witness :
    jsxScan (fun _ => none) (fun _ => "") "const x =" = [] :=
  jsx_scan_parse_failure_empty (fun _ => none) (fun _ => "") "const x =" rfl

/-- C7: the fix generator is a pure function of issue and config; it
yields a fix exactly for missing-alt-text, missing-button-type and
missing-lang-attribute (always), missing-aria-label (unless
autoFix.generateAriaLabels is set to false) and missing-form-label
(unless autoFix.wrapInputsWithLabels is set to false); every other issue
type gets none. -/
theorem generateFixForIssue_policy (config : Config) (issue : AccessibilityIssue) :
    (generateFixForIssue config issue).isSome = true ↔
      (issue.type = .missingAltText ∨ issue.type = .missingButtonType
        ∨ issue.type = .missingLangAttribute
        ∨ (issue.type = .missingAriaLabel
            ∧ (config.autoFix.getD {}).generateAriaLabels ≠ some false)
        ∨ (issue.type = .missingFormLabel
            ∧ (config.autoFix.getD {}).wrapInputsWithLabels ≠ some false)) := by
  cases htype : issue.type <;> simp [generateFixForIssue, htype]

/-- C8: in every assembled ScanResult the pre-fix total is at least the
fixed count. -/
theorem scan_total_ge_fixed (loc : Loc) (jsxParse : String → Option (List JSXNode))
    (snip : Snip) (transformJSX : String → List AccessibilityIssue → String)
    (config : Config) (kind : FileKind) (file content : String) :
    (processFile loc jsxParse snip transformJSX config kind file content).result.fixed
      ≤ (processFile loc jsxParse snip transformJSX config kind file content).result.total := by
  have hlen : ∀ issues : List AccessibilityIssue,
      ((generateFixes {} issues).filter (fun i => i.fix.isSome)).length ≤ issues.length := by
    intro issues
    calc ((generateFixes {} issues).filter (fun i => i.fix.isSome)).length
        ≤ (generateFixes {} issues).length := List.length_filter_le _ _
      _ = issues.length := by simp [generateFixes]
  have hite : ∀ (b : Bool) (n m : Nat), n ≤ m → (if b = true then n else 0) ≤ m := by
    intro b n m h
    cases b
    · simp
    · simpa using h
  dsimp [processFile]
  exact hite _ _ _ (hlen _)

/-- C4 counterexample: AutoFixer.fixHTML with zero fixes still round
trips through jsdom, so on the empty input it returns the serialized
scaffold rather than the input. -/
theorem fixHTML_zero_fixes_not_identity :
    fixHTML "" [] = "<html><head></head><body></body></html>" ∧ fixHTML "" [] ≠ "" := by
  constructor
  · rfl
  · decide

/-- Helper: the DOM fix loop over issues without attached fixes leaves
the document unchanged. -/
theorem fixHTMLDom_nofix (issues : List AccessibilityIssue)
    (h : ∀ i ∈ issues, i.fix = none) : ∀ d : Node, fixHTMLDom d issues = d := by
  induction issues with
  | nil => intro d; rfl
  | cons i is ih =>
      intro d
      have hi : i.fix = none := h i (by simp)
      have hstep : fixHTMLDom d (i :: is) = fixHTMLDom d is := by
        simp [fixHTMLDom, hi]
      rw [hstep]
      exact ih (fun j hj => h j (by simp [hj])) d

/-- C4 amended: with no attached fixes, fixJSX returns its input
byte-for-byte, while fixHTML applies no DOM mutation but still returns
the jsdom serialization of the parsed input. -/
theorem fix_zero_times (transformJSX : String → List AccessibilityIssue → String)
    (code html : String) (issues1 issues2 : List AccessibilityIssue)
    (h1 : ∀ i ∈ issues1, i.fix = none) (h2 : ∀ i ∈ issues2, i.fix = none) :
    fixJSX transformJSX code issues1 = code
    ∧ fixHTML html issues2 = serializeNode (jsdomParse html) := by
  constructor
  · have hfilter : issues1.filter (fun i => i.fix.isSome) = [] := by
      rw [List.filter_eq_nil_iff]
      intro i hi
      simp [h1 i hi]
    simp [fixJSX, hfilter]
  · simp [fixHTML, fixHTMLDom_nofix issues2 h2]

/-- Witness for fix_zero_times at a concrete transformer, inputs and
empty issue lists. -/
theorem fix_zero_times_witness :
    fixJSX (fun c _ => c) "let a = 1" [] = "let a = 1"
    ∧ fixHTML "" [] = serializeNode (jsdomParse "") :=
  fix_zero_times (fun c _ => c) "let a = 1" "" [] [] (by simp) (by simp)

/-- Helper: headings extracted by the selector have positive level. -/
theorem headingLevel_pos_of_mem (document : Node) :
    ∀ h ∈ headings document, 0 < headingLevel h.tagName := by
  intro h hm
  have hc := (List.mem_filter.mp hm).2
  have hmem : h.tagName ∈ headingTags := by simpa using hc
  simp only [headingTags, List.mem_cons, List.not_mem_nil, or_false] at hmem
  rcases hmem with h' | h' | h' | h' | h' | h' <;> (rw [h']; decide)

/-- Helper: the running-counter heading walk, started after a heading of
positive level, equals the pairwise predecessor formulation. -/
theorem hhIssues_eq_zip (loc : Loc) : ∀ (hs : List Node) (prev : Node),
    0 < headingLevel prev.tagName → (∀ h ∈ hs, 0 < headingLevel h.tagName) →
    hhIssues loc (headingLevel prev.tagName) hs
      = (hs.zip (some prev :: hs.map some)).filterMap (fun p =>
          match p.2 with
          | none => none
          | some q =>
              if headingLevel p.1.tagName > headingLevel q.tagName + 1 then
                some (addIssue loc .missingHeadingHierarchy .warning
                  (hhMessage (headingLevel p.1.tagName) (headingLevel q.tagName)) p.1 none)
              else none) := by
  intro hs
  induction hs with
  | nil => intro prev hp hall; rfl
  | cons h rest ih =>
      intro prev hp hall
      have hh : 0 < headingLevel h.tagName := hall h (by simp)
      have hrest : ∀ x ∈ rest, 0 < headingLevel x.tagName := fun x hx => hall x (by simp [hx])
      simp only [hhIssues, List.map_cons, List.zip_cons_cons, List.filterMap_cons]
      rw [ih h hh hrest]
      by_cases hgt : headingLevel h.tagName > headingLevel prev.tagName + 1 <;>
        simp [hgt, hp]

/-- Helper: the scanner's heading-hierarchy check equals the spec-side
pairwise formulation on the document's heading sequence. -/
theorem checkHeadingHierarchy_eq_spec (loc : Loc) (document : Node) :
    checkHeadingHierarchy loc document = specHeadingIssues loc (headings document) := by
  have hall := headingLevel_pos_of_mem document
  unfold checkHeadingHierarchy specHeadingIssues
  cases hhead : headings document with
  | nil => rfl
  | cons h rest =>
      have hh : 0 < headingLevel h.tagName := hall h (by rw [hhead]; simp)
      have hrest : ∀ x ∈ rest, 0 < headingLevel x.tagName := fun x hx =>
        hall x (by rw [hhead]; simp [hx])
      simp only [hhIssues, List.map_cons, List.zip_cons_cons, List.filterMap_cons]
      rw [hhIssues_eq_zip loc rest h hh hrest]
      simp

/-- C3: for every document, the heading-hierarchy check flags a heading
exactly when its level exceeds the immediately preceding heading's level
by more than one (the first heading never); concretely, h1 then h3 gives
exactly one warning at the h3 and h1,h2,h3 gives none. -/
theorem heading_hierarchy_claim :
    (∀ (loc : Loc) (document : Node),
        checkHeadingHierarchy loc document = specHeadingIssues loc (headings document))
    ∧ checkHeadingHierarchy locDefault docH1H3
        = [{ type := .missingHeadingHierarchy, severity := .warning,
             message := "Heading level 3 follows level 1 (should be 2)",
             line := 1, column := 1, code := "<h3>", fix := none }]
    ∧ checkHeadingHierarchy locDefault docH123 = [] := by
  refine ⟨checkHeadingHierarchy_eq_spec, ?_, ?_⟩ <;> decide

/-- Helper: membership in a conditional list implies membership in its
then-branch. -/
theorem mem_ite_nil {α} {c : Prop} [Decidable c] {l : List α} {a : α}
    (h : a ∈ if c then l else []) : a ∈ l := by
  split at h
  · exact h
  · cases h

/-- Helper: checkImageAlt only produces missing-alt-text issues. -/
theorem checkImageAlt_types (snip : Snip) (node : JSXNode) (attrs : List JSXAttrItem) :
    ∀ i ∈ checkImageAlt snip node attrs, i.type = .missingAltText := by
  intro i hi
  unfold checkImageAlt at hi
  have hi' := mem_ite_nil hi
  simp only [List.mem_singleton] at hi'
  rw [hi']
  rfl

/-- Helper: checkAriaLabel only produces missing-aria-label issues. -/
theorem checkAriaLabel_types (snip : Snip) (node : JSXNode) (attrs : List JSXAttrItem)
    (tagName : String) :
    ∀ i ∈ checkAriaLabel snip node attrs tagName, i.type = .missingAriaLabel := by
  intro i hi
  dsimp only [checkAriaLabel] at hi
  have hi' := mem_ite_nil hi
  simp only [List.mem_singleton] at hi'
  rw [hi']
  rfl

/-- Helper: checkButtonTypeJSX only produces missing-button-type issues. -/
theorem checkButtonTypeJSX_types (snip : Snip) (node : JSXNode) (attrs : List JSXAttrItem) :
    ∀ i ∈ checkButtonTypeJSX snip node attrs, i.type = .missingButtonType := by
  intro i hi
  unfold checkButtonTypeJSX at hi
  have hi' := mem_ite_nil hi
  simp only [List.mem_singleton] at hi'
  rw [hi']
  rfl

/-- Helper: checkFormLabelJSX only produces missing-form-label issues. -/
theorem checkFormLabelJSX_types (snip : Snip) (parent : Option JSXNode) (node : JSXNode)
    (attrs : List JSXAttrItem) :
    ∀ i ∈ checkFormLabelJSX snip parent node attrs, i.type = .missingFormLabel := by
  intro i hi
  dsimp only [checkFormLabelJSX] at hi
  have hi' := mem_ite_nil hi
  have hi'' := mem_ite_nil hi'
  simp only [List.mem_singleton] at hi''
  rw [hi'']
  rfl

/-- Helper: checkInvalidRoleJSX only produces invalid-role issues. -/
theorem checkInvalidRoleJSX_types (snip : Snip) (node : JSXNode) (attrs : List JSXAttrItem) :
    ∀ i ∈ checkInvalidRoleJSX snip node attrs, i.type = .invalidRole := by
  intro i hi
  unfold checkInvalidRoleJSX at hi
  rcases hattr : getAttributeJSX attrs "id" with _ | _
  all_goals {
    revert hi
    cases getAttributeJSX attrs "role" with
    | none => intro hi; cases hi
    | some item =>
        cases item with
        | spread => intro hi; cases hi
        | attr n v =>
            cases v with
            | none => intro hi; cases hi
            | some val =>
                cases val with
                | exprVal => intro hi; cases hi
                | strLit s =>
                    intro hi
                    have hi' := mem_ite_nil hi
                    simp only [List.mem_singleton] at hi'
                    rw [hi']
                    rfl }

/-- Helper: the JSX duplicate-id check never fires, because
findDuplicateIds always returns an empty list. -/
theorem checkDuplicateIdJSX_eq_nil (snip : Snip) (node : JSXNode)
    (attrs : List JSXAttrItem) : checkDuplicateIdJSX snip node attrs = [] := by
  unfold checkDuplicateIdJSX
  cases getAttributeJSX attrs "id" with
  | none => rfl
  | some item =>
      cases item with
      | spread => rfl
      | attr n v =>
          cases v with
          | none => rfl
          | some val =>
              cases val with
              | exprVal => rfl
              | strLit s => rfl

/-- Helper: the JSX heading check never fires for the six admitted
heading tags, whose level is at most 6. -/
theorem checkHeadingHierarchyJSX_eq_nil (snip : Snip) (node : JSXNode) (t : String)
    (ht : headingTags.contains t = true) :
    checkHeadingHierarchyJSX snip node t = [] := by
  have hmem : t ∈ headingTags := by simpa using ht
  simp only [headingTags, List.mem_cons, List.not_mem_nil, or_false] at hmem
  rcases hmem with h' | h' | h' | h' | h' | h' <;> (subst h'; rfl)

/-- Helper: no issue emitted by checkJSXElement is a duplicate-id or
missing-heading-hierarchy issue. -/
theorem checkJSXElement_clean (snip : Snip) (parent : Option JSXNode) (node : JSXNode)
    (attrs : List JSXAttrItem) (tagName : String) :
    ∀ i ∈ checkJSXElement snip parent node attrs tagName,
      (i.type == IssueType.duplicateId || i.type == IssueType.missingHeadingHierarchy) = false := by
  intro i hi
  unfold checkJSXElement at hi
  simp only [List.mem_append] at hi
  rcases hi with ((((((hi | hi) | hi) | hi) | hi) | hi) | hi)
  · rw [checkImageAlt_types snip node attrs i (mem_ite_nil hi)]; rfl
  · rw [checkAriaLabel_types snip node attrs tagName i (mem_ite_nil hi)]; rfl
  · rw [checkButtonTypeJSX_types snip node attrs i (mem_ite_nil hi)]; rfl
  · rw [checkFormLabelJSX_types snip parent node attrs i (mem_ite_nil hi)]; rfl
  · rw [checkDuplicateIdJSX_eq_nil snip node attrs] at hi; cases hi
  · split at hi
    · rename_i hc
      rw [checkHeadingHierarchyJSX_eq_nil snip node tagName hc] at hi; cases hi
    · cases hi
  · rw [checkInvalidRoleJSX_types snip node attrs i hi]; rfl

mutual
/-- Helper: no issue emitted while visiting a JSX node is a duplicate-id
or missing-heading-hierarchy issue. -/
theorem jsxVisit_clean (snip : Snip) (parent : Option JSXNode) (n : JSXNode) :
    ∀ i ∈ jsxVisit snip parent n,
      (i.type == IssueType.duplicateId || i.type == IssueType.missingHeadingHierarchy) = false := by
  cases n with
  | jsxText s => intro i hi; simp [jsxVisit] at hi
  | exprChild => intro i hi; simp [jsxVisit] at hi
  | elem t l c a cs =>
      intro i hi
      simp only [jsxVisit, List.mem_append] at hi
      rcases hi with hi | hi
      · exact checkJSXElement_clean snip parent (.elem t l c a cs) a t i hi
      · exact jsxVisitL_clean snip (some (.elem t l c a cs)) cs i hi

/-- Helper: jsxVisit_clean over a children sequence. -/
theorem jsxVisitL_clean (snip : Snip) (parent : Option JSXNode) (ns : JSXNodeList) :
    ∀ i ∈ jsxVisitL snip parent ns,
      (i.type == IssueType.duplicateId || i.type == IssueType.missingHeadingHierarchy) = false := by
  cases ns with
  | nil => intro i hi; simp [jsxVisitL] at hi
  | cons n ns =>
      intro i hi
      simp only [jsxVisitL, List.mem_append] at hi
      rcases hi with hi | hi
      · exact jsxVisit_clean snip parent n i hi
      · exact jsxVisitL_clean snip parent ns i hi
end

/-- C10: JSXScanner.scan never emits a duplicate-id issue and never
emits a missing-heading-hierarchy issue, for every input and parse
outcome. -/
theorem jsx_scan_no_dup_no_hierarchy (parse : String → Option (List JSXNode))
    (snip : Snip) (code : String) :
    (jsxScan parse snip code).countP
      (fun i => i.type == IssueType.duplicateId
        || i.type == IssueType.missingHeadingHierarchy) = 0 := by
  cases hp : parse code with
  | none => simp [jsxScan, hp]
  | some roots =>
      simp only [jsxScan, hp]
      rw [List.countP_eq_zero]
      intro i hi
      rw [List.mem_flatMap] at hi
      obtain ⟨r, hr, hmem⟩ := hi
      simp [jsxVisit_clean snip none r i hmem]

/-- Helper: with enough fuel, firstOccurAux preserves membership. -/
theorem mem_firstOccurAux (v : String) :
    ∀ (fuel : Nat) (l : List String), l.length ≤ fuel →
      (v ∈ firstOccurAux fuel l ↔ v ∈ l) := by
  intro fuel
  induction fuel with
  | zero =>
      intro l hl
      rw [List.eq_nil_of_length_eq_zero (Nat.le_zero.mp hl)]
      simp [firstOccurAux]
  | succ fuel ih =>
      intro l hl
      cases l with
      | nil => simp [firstOccurAux]
      | cons x xs =>
          have hfl : (xs.filter (fun y => y != x)).length ≤ fuel :=
            le_trans (List.length_filter_le _ _) (Nat.succ_le_succ_iff.mp hl)
          rw [firstOccurAux]
          by_cases hvx : v = x
          · subst hvx; simp
          · simp only [List.mem_cons, hvx, false_or]
            rw [ih _ hfl]
            simp [List.mem_filter, hvx]

/-- Helper: firstOccur preserves membership. -/
theorem mem_firstOccur (v : String) (l : List String) : v ∈ firstOccur l ↔ v ∈ l :=
  mem_firstOccurAux v l.length l (le_refl _)

/-- Helper: with enough fuel, firstOccurAux has no duplicates. -/
theorem nodup_firstOccurAux :
    ∀ (fuel : Nat) (l : List String), l.length ≤ fuel →
      (firstOccurAux fuel l).Nodup := by
  intro fuel
  induction fuel with
  | zero => intro l _; simp [firstOccurAux]
  | succ fuel ih =>
      intro l hl
      cases l with
      | nil => simp [firstOccurAux]
      | cons x xs =>
          have hfl : (xs.filter (fun y => y != x)).length ≤ fuel :=
            le_trans (List.length_filter_le _ _) (Nat.succ_le_succ_iff.mp hl)
          rw [firstOccurAux, List.nodup_cons]
          refine ⟨?_, ih _ hfl⟩
          intro hx
          rw [mem_firstOccurAux x fuel _ hfl] at hx
          have := (List.mem_filter.mp hx).2
          simp at this

/-- Helper: firstOccur has no duplicates. -/
theorem nodup_firstOccur (l : List String) : (firstOccur l).Nodup :=
  nodup_firstOccurAux l.length l (le_refl _)

/-- Helper: the duplicate-id message determines the id value. -/
theorem dupIdMessage_inj {v w : String} (h : dupIdMessage v = dupIdMessage w) : v = w := by
  unfold dupIdMessage at h
  have hd := congrArg String.data h
  simp only [String.data_append, List.append_assoc] at hd
  exact String.ext (List.append_cancel_right (List.append_cancel_left hd))

/-- Helper: a present attribute value implies attribute presence. -/
theorem getAttribute_some_hasAttribute (n : Node) (name val : String)
    (h : n.getAttribute name = some val) : n.hasAttribute name = true := by
  unfold Node.getAttribute at h
  unfold Node.hasAttribute hasAttr
  rcases hf : n.attrs.find? (fun p => p.1 == name) with _ | p
  · rw [hf] at h; cases h
  · have hp := @List.find?_some _ (fun q : String × String => q.1 == name) p n.attrs hf
    have hmem : p ∈ n.attrs := List.mem_of_find?_eq_some hf
    exact List.any_eq_true.mpr ⟨p, hmem, hp⟩

/-- Helper: the id-map group for a value equals the document-wide filter
by that id value. -/
theorem dupIdGroup_eq (document : Node) (v : String) :
    dupIdGroup document v
      = (allElems document).filter (fun e => e.getAttribute "id" == some v) := by
  unfold dupIdGroup elementsWithIds
  rw [List.filter_filter]
  apply List.filter_congr
  intro e _
  by_cases hg : e.getAttribute "id" = some v
  · simp [hg, getAttribute_some_hasAttribute e "id" v hg]
  · have hb : (e.getAttribute "id" == some v) = false := beq_eq_false_iff_ne.mpr hg
    simp [hb]

/-- Helper: counting over a flatMap where at most the group of one key
can contribute. -/
theorem countP_flatMap_eq {α β : Type} [DecidableEq α] (p : β → Bool) (f : α → List β)
    (v : α) : ∀ l : List α, l.Nodup → (∀ w ∈ l, w ≠ v → (f w).countP p = 0) →
    (l.flatMap f).countP p = if v ∈ l then (f v).countP p else 0 := by
  intro l
  induction l with
  | nil => intro _ _; simp
  | cons w ws ih =>
      intro hnd hz
      rw [List.flatMap_cons, List.countP_append]
      have hndw := List.nodup_cons.mp hnd
      by_cases hwv : w = v
      · subst hwv
        rw [ih hndw.2 (fun u hu hne => hz u (List.mem_cons_of_mem _ hu) hne)]
        rw [if_neg hndw.1, if_pos (List.mem_cons_self _ _)]
        omega
      · rw [hz w (List.mem_cons_self _ _) hwv]
        rw [ih hndw.2 (fun u hu hne => hz u (List.mem_cons_of_mem _ hu) hne)]
        by_cases hvin : v ∈ ws
        · rw [if_pos hvin, if_pos (List.mem_cons_of_mem w hvin)]
          omega
        · rw [if_neg hvin, if_neg (fun hc => by
            rcases List.mem_cons.mp hc with h | h
            · exact hwv h.symm
            · exact hvin h)]

/-- Helper: dupIdKeys has no duplicate keys. -/
theorem nodup_dupIdKeys (document : Node) : (dupIdKeys document).Nodup :=
  nodup_firstOccur _

/-- Helper: a value carried by at least one element (and non-empty) is a
key of the id map. -/
theorem mem_dupIdKeys (document : Node) (v : String) (hv : v ≠ "")
    (hpos : 0 < (dupIdGroup document v).length) : v ∈ dupIdKeys document := by
  unfold dupIdKeys
  rw [mem_firstOccur]
  obtain ⟨e, he⟩ := List.exists_mem_of_length_pos hpos
  have he' := List.mem_filter.mp he
  rw [List.mem_filterMap]
  refine ⟨e, he'.1, ?_⟩
  have hget : e.getAttribute "id" = some v := eq_of_beq he'.2
  rw [hget]
  simp [hv]

/-- Helper: groups of other id values contribute no issue matching the
duplicate-id predicate for v. -/
theorem countP_dupIdIssuesFor_ne (loc : Loc) (document : Node) {v w : String}
    (hwv : w ≠ v) : (dupIdIssuesFor loc document w).countP (qdup v) = 0 := by
  unfold dupIdIssuesFor
  split
  · rw [List.countP_eq_zero]
    intro i hi
    rw [List.mem_map] at hi
    obtain ⟨e, _, heq⟩ := hi
    rw [← heq]
    have hmsg : (dupIdMessage w == dupIdMessage v) = false :=
      beq_eq_false_iff_ne.mpr (fun h => hwv (dupIdMessage_inj h))
    simp [qdup, addIssue, hmsg]
  · simp

/-- Helper: the group of v itself contributes one matching issue per
member when the group has more than one member. -/
theorem countP_dupIdIssuesFor_self (loc : Loc) (document : Node) (v : String)
    (hN : 1 < (dupIdGroup document v).length) :
    (dupIdIssuesFor loc document v).countP (qdup v) = (dupIdGroup document v).length := by
  unfold dupIdIssuesFor
  rw [if_pos hN, List.countP_map]
  apply List.countP_eq_length.mpr
  intro e _
  simp [qdup, addIssue]

/-- Helper: the duplicate-id check contributes exactly the group size. -/
theorem countP_checkDuplicateIds (loc : Loc) (document : Node) (v : String) (hv : v ≠ "")
    (hN : 1 < (dupIdGroup document v).length) :
    (checkDuplicateIds loc document).countP (qdup v) = (dupIdGroup document v).length := by
  unfold checkDuplicateIds
  rw [countP_flatMap_eq (qdup v) (dupIdIssuesFor loc document) v (dupIdKeys document)
    (nodup_dupIdKeys document) (fun w _ hne => countP_dupIdIssuesFor_ne loc document hne)]
  rw [if_pos (mem_dupIdKeys document v hv (Nat.lt_of_lt_of_le Nat.zero_lt_one (le_of_lt hN)))]
  exact countP_dupIdIssuesFor_self loc document v hN

/-- Helper: checkMissingAltText only produces missing-alt-text issues. -/
theorem checkMissingAltText_types (loc : Loc) (document : Node) :
    ∀ i ∈ checkMissingAltText loc document, i.type = .missingAltText := by
  intro i hi
  unfold checkMissingAltText at hi
  rw [List.mem_filterMap] at hi
  obtain ⟨e, _, heq⟩ := hi
  split at heq
  · injection heq with h; rw [← h]; rfl
  · cases heq

/-- Helper: checkMissingAriaLabels only produces missing-aria-label
issues. -/
theorem checkMissingAriaLabels_types (loc : Loc) (document : Node) :
    ∀ i ∈ checkMissingAriaLabels loc document, i.type = .missingAriaLabel := by
  intro i hi
  dsimp only [checkMissingAriaLabels] at hi
  rw [List.mem_filterMap] at hi
  obtain ⟨e, _, heq⟩ := hi
  split at heq
  · injection heq with h; rw [← h]; rfl
  · cases heq

/-- Helper: checkMissingFormLabels only produces missing-form-label
issues. -/
theorem checkMissingFormLabels_types (loc : Loc) (document : Node) :
    ∀ i ∈ checkMissingFormLabels loc document, i.type = .missingFormLabel := by
  intro i hi
  dsimp only [checkMissingFormLabels] at hi
  rw [List.mem_filterMap] at hi
  obtain ⟨e, _, heq⟩ := hi
  split at heq
  · injection heq with h; rw [← h]; rfl
  · cases heq

/-- Helper: checkMissingButtonType only produces missing-button-type
issues. -/
theorem checkMissingButtonType_types (loc : Loc) (document : Node) :
    ∀ i ∈ checkMissingButtonType loc document, i.type = .missingButtonType := by
  intro i hi
  unfold checkMissingButtonType at hi
  rw [List.mem_filterMap] at hi
  obtain ⟨e, _, heq⟩ := hi
  split at heq
  · injection heq with h; rw [← h]; rfl
  · cases heq

/-- Helper: checkMissingLang only produces missing-lang-attribute
issues. -/
theorem checkMissingLang_types (loc : Loc) (document : Node) :
    ∀ i ∈ checkMissingLang loc document, i.type = .missingLangAttribute := by
  intro i hi
  unfold checkMissingLang at hi
  revert hi
  cases document with
  | text s => intro hi; cases hi
  | elem t a cs =>
      intro hi
      have hi' := mem_ite_nil hi
      simp only [List.mem_singleton] at hi'
      rw [hi']
      rfl

/-- Helper: the heading walk only produces missing-heading-hierarchy
issues. -/
theorem hhIssues_types (loc : Loc) :
    ∀ (hs : List Node) (prev : Nat), ∀ i ∈ hhIssues loc prev hs,
      i.type = .missingHeadingHierarchy := by
  intro hs
  induction hs with
  | nil => intro prev i hi; simp [hhIssues] at hi
  | cons h rest ih =>
      intro prev i hi
      rw [hhIssues] at hi
      split at hi
      · rcases List.mem_cons.mp hi with heq | htail
        · rw [heq]; rfl
        · exact ih _ i htail
      · exact ih _ i hi

/-- Helper: checkHeadingHierarchy only produces missing-heading-hierarchy
issues. -/
theorem checkHeadingHierarchy_types (loc : Loc) (document : Node) :
    ∀ i ∈ checkHeadingHierarchy loc document, i.type = .missingHeadingHierarchy := by
  intro i hi
  exact hhIssues_types loc (headings document) 0 i hi

/-- Helper: checkMissingLandmarks only produces missing-landmark issues. -/
theorem checkMissingLandmarks_types (loc : Loc) (document : Node) :
    ∀ i ∈ checkMissingLandmarks loc document, i.type = .missingLandmark := by
  intro i hi
  dsimp only [checkMissingLandmarks] at hi
  rw [List.mem_append] at hi
  rcases hi with hi | hi <;>
    · have hi' := mem_ite_nil hi
      simp only [List.mem_singleton] at hi'
      rw [hi']
      rfl

/-- Helper: checkInvalidRoles only produces invalid-role issues. -/
theorem checkInvalidRoles_types (loc : Loc) (document : Node) :
    ∀ i ∈ checkInvalidRoles loc document, i.type = .invalidRole := by
  intro i hi
  unfold checkInvalidRoles at hi
  rw [List.mem_filterMap] at hi
  obtain ⟨e, _, heq⟩ := hi
  rcases hrole : e.getAttribute "role" with _ | role <;> rw [hrole] at heq
  · cases heq
  · simp only [] at heq
    split at heq
    · injection heq with h; rw [← h]; rfl
    · cases heq

/-- Helper: a check whose issues all have a non-duplicate-id type
contributes nothing to the duplicate-id count. -/
theorem countP_qdup_zero (v : String) (l : List AccessibilityIssue) (ty : IssueType)
    (hty : ∀ i ∈ l, i.type = ty) (hne : (ty == IssueType.duplicateId) = false) :
    l.countP (qdup v) = 0 := by
  rw [List.countP_eq_zero]
  intro i hi
  have h := hty i hi
  simp [qdup, h, hne]

/-- C2 amended: for every document and every non-empty id value carried
by N > 1 elements, the scan reports exactly N duplicate-id error issues
for that id.  (An empty string id is falsy in the source and never
flagged; see the counterexample.) -/
theorem duplicate_ids_flag_all (loc : Loc) (document : Node) (v : String) (hv : v ≠ "")
    (hN : 1 < ((allElems document).filter (fun e => e.getAttribute "id" == some v)).length) :
    (htmlScan loc document).countP (qdup v)
      = ((allElems document).filter (fun e => e.getAttribute "id" == some v)).length := by
  have hN' : 1 < (dupIdGroup document v).length := by rw [dupIdGroup_eq]; exact hN
  unfold htmlScan
  simp only [List.countP_append]
  rw [countP_qdup_zero v _ _ (checkMissingAltText_types loc document) (by decide),
    countP_qdup_zero v _ _ (checkMissingAriaLabels_types loc document) (by decide),
    countP_qdup_zero v _ _ (checkMissingFormLabels_types loc document) (by decide),
    countP_qdup_zero v _ _ (checkMissingButtonType_types loc document) (by decide),
    countP_qdup_zero v _ _ (checkMissingLang_types loc document) (by decide),
    countP_qdup_zero v _ _ (checkHeadingHierarchy_types loc document) (by decide),
    countP_qdup_zero v _ _ (checkMissingLandmarks_types loc document) (by decide),
    countP_qdup_zero v _ _ (checkInvalidRoles_types loc document) (by decide),
    countP_checkDuplicateIds loc document v hv hN', dupIdGroup_eq]
  omega

/-- Witness for duplicate_ids_flag_all at a concrete document with two
elements sharing id x. -/
theorem duplicate_ids_flag_all_witness :
    ("x" ≠ "")
    ∧ 1 < ((allElems docTwoIds).filter (fun e => e.getAttribute "id" == some "x")).length
    ∧ (htmlScan locDefault docTwoIds).countP (qdup "x")
        = ((allElems docTwoIds).filter (fun e => e.getAttribute "id" == some "x")).length :=
  ⟨by decide, by decide, duplicate_ids_flag_all locDefault docTwoIds "x" (by decide) (by decide)⟩

/-- C2 counterexample: two elements share the empty id value, yet the
scan reports zero duplicate-id issues, because the source skips falsy
ids when building the id map. -/
theorem duplicate_ids_empty_id_missed :
    ((allElems docEmptyIds).filter (fun e => e.getAttribute "id" == some "")).length = 2
    ∧ (htmlScan locDefault docEmptyIds).countP
        (fun i => i.type == IssueType.duplicateId) = 0 := by
  constructor <;> decide

/-- Helper: an attribute present on the left survives an append. -/
theorem hasAttr_append_left (a b : List (String × String)) (name : String)
    (h : hasAttr a name = true) : hasAttr (a ++ b) name = true := by
  unfold hasAttr at h ⊢
  rw [List.any_append, h]
  rfl

/-- Helper: an appended attribute is present. -/
theorem hasAttr_append_single (a : List (String × String)) (name v : String) :
    hasAttr (a ++ [(name, v)]) name = true := by
  unfold hasAttr
  rw [List.any_append]
  simp

mutual
/-- Helper: the elements of a mapped tree are the mapped elements. -/
theorem allElems_mapElems (f : AttrFn) (n : Node) :
    allElems (mapElems f n) = (allElems n).map (mapElems f) := by
  cases n with
  | text s => simp [allElems, mapElems]
  | elem t a cs =>
      simp only [allElems, mapElems, List.map_cons]
      exact congrArg _ (allElemsL_mapElems f cs)

/-- Helper: allElems_mapElems over a children sequence. -/
theorem allElemsL_mapElems (f : AttrFn) (ns : NodeList) :
    allElemsL (mapElemsL f ns) = (allElemsL ns).map (mapElems f) := by
  cases ns with
  | nil => simp [allElemsL, mapElemsL]
  | cons n ns' =>
      simp only [allElemsL, mapElemsL, List.map_append]
      rw [allElems_mapElems f n, allElemsL_mapElems f ns']
end

mutual
/-- Helper: every member of allElems is an element node. -/
theorem allElems_shape (n : Node) : ∀ x ∈ allElems n, ∃ t a cs, x = Node.elem t a cs := by
  cases n with
  | text s => intro x hx; simp [allElems] at hx
  | elem t a cs =>
      intro x hx
      simp only [allElems] at hx
      rcases List.mem_cons.mp hx with h | h
      · exact ⟨t, a, cs, h⟩
      · exact allElemsL_shape cs x h

/-- Helper: allElems_shape over a children sequence. -/
theorem allElemsL_shape (ns : NodeList) :
    ∀ x ∈ allElemsL ns, ∃ t a cs, x = Node.elem t a cs := by
  cases ns with
  | nil => intro x hx; simp [allElemsL] at hx
  | cons n ns' =>
      intro x hx
      simp only [allElemsL] at hx
      rcases List.mem_append.mp hx with h | h
      · exact allElems_shape n x h
      · exact allElemsL_shape ns' x h
end

mutual
/-- Helper: an attribute rewrite that fixes every reachable attribute
list leaves the tree unchanged. -/
theorem mapElems_id_of (f : AttrFn) (n : Node)
    (h : ∀ e ∈ allElems n, ∀ t a cs, e = Node.elem t a cs → f t a = a) :
    mapElems f n = n := by
  cases n with
  | text s => simp [mapElems]
  | elem t a cs =>
      simp only [mapElems]
      have ht : f t a = a := h _ (by simp [allElems]) t a cs rfl
      rw [ht, mapElemsL_id_of f cs]
      intro e he t' a' cs' heq
      exact h e (by simp [allElems, he]) t' a' cs' heq

/-- Helper: mapElems_id_of over a children sequence. -/
theorem mapElemsL_id_of (f : AttrFn) (ns : NodeList)
    (h : ∀ e ∈ allElemsL ns, ∀ t a cs, e = Node.elem t a cs → f t a = a) :
    mapElemsL f ns = ns := by
  cases ns with
  | nil => simp [mapElemsL]
  | cons n ns' =>
      simp only [mapElemsL]
      rw [mapElems_id_of f n, mapElemsL_id_of f ns']
      · intro e he t' a' cs' heq
        exact h e (by simp [allElemsL, he]) t' a' cs' heq
      · intro e he t' a' cs' heq
        exact h e (by simp [allElemsL, he]) t' a' cs' heq
end

/-- Helper: the img mutation never removes attributes. -/
theorem altFixAttr_extends (t : String) (a : List (String × String)) (name : String)
    (h : hasAttr a name = true) : hasAttr (altFixAttr t a) name = true := by
  unfold altFixAttr
  split
  · exact hasAttr_append_left a _ name h
  · exact h

/-- Helper: the button mutation never removes attributes. -/
theorem typeFixAttr_extends (t : String) (a : List (String × String)) (name : String)
    (h : hasAttr a name = true) : hasAttr (typeFixAttr t a) name = true := by
  unfold typeFixAttr
  split
  · exact hasAttr_append_left a _ name h
  · exact h

/-- Helper: attribute-extending tree rewrites preserve every saturation
state. -/
theorem FixedFor_mapElems (ty : IssueType) (g : AttrFn)
    (hg : ∀ t a name, hasAttr a name = true → hasAttr (g t a) name = true)
    (document : Node) (h : FixedFor ty document) : FixedFor ty (mapElems g document) := by
  cases ty
  case missingAltText =>
      simp only [FixedFor] at h ⊢
      intro e he htag
      rw [allElems_mapElems g document, List.mem_map] at he
      obtain ⟨e0, he0, heq⟩ := he
      obtain ⟨t, a, cs, he0eq⟩ := allElems_shape document e0 he0
      subst he0eq
      subst heq
      simp only [mapElems, Node.tagName] at htag
      simp only [mapElems, Node.hasAttribute, Node.attrs]
      have hbase := h _ he0 (by simp only [Node.tagName]; exact htag)
      simp only [Node.hasAttribute, Node.attrs] at hbase
      exact hg t a "alt" hbase
  case missingButtonType =>
      simp only [FixedFor] at h ⊢
      intro e he htag
      rw [allElems_mapElems g document, List.mem_map] at he
      obtain ⟨e0, he0, heq⟩ := he
      obtain ⟨t, a, cs, he0eq⟩ := allElems_shape document e0 he0
      subst he0eq
      subst heq
      simp only [mapElems, Node.tagName] at htag
      simp only [mapElems, Node.hasAttribute, Node.attrs]
      have hbase := h _ he0 (by simp only [Node.tagName]; exact htag)
      simp only [Node.hasAttribute, Node.attrs] at hbase
      exact hg t a "type" hbase
  case missingLangAttribute =>
      cases document with
      | text s => simp [FixedFor, mapElems]
      | elem t a cs =>
          simp only [FixedFor, mapElems] at h ⊢
          exact hg t a "lang" h
  all_goals trivial

/-- Helper: the root lang mutation preserves every saturation state. -/
theorem FixedFor_langFixRoot (ty : IssueType) (document : Node)
    (h : FixedFor ty document) : FixedFor ty (langFixRoot document) := by
  cases ty
  case missingAltText =>
      cases document with
      | text s => simpa [langFixRoot] using h
      | elem t a cs =>
          by_cases hl : hasAttr a "lang"
          · have hrw : langFixRoot (.elem t a cs) = .elem t a cs := by
              simp [langFixRoot, hl]
            rw [hrw]
            exact h
          · have hrw : langFixRoot (.elem t a cs) = .elem t (a ++ [("lang", "en")]) cs := by
              simp [langFixRoot, hl]
            rw [hrw]
            simp only [FixedFor] at h ⊢
            intro e he htag
            simp only [allElems] at he
            rcases List.mem_cons.mp he with heq | hmem
            · subst heq
              simp only [Node.tagName] at htag
              simp only [Node.hasAttribute, Node.attrs]
              have hbase := h (Node.elem t a cs) (by simp [allElems])
                (by simp only [Node.tagName]; exact htag)
              simp only [Node.hasAttribute, Node.attrs] at hbase
              exact hasAttr_append_left a _ "alt" hbase
            · exact h e (by simp [allElems, hmem]) htag
  case missingButtonType =>
      cases document with
      | text s => simpa [langFixRoot] using h
      | elem t a cs =>
          by_cases hl : hasAttr a "lang"
          · have hrw : langFixRoot (.elem t a cs) = .elem t a cs := by
              simp [langFixRoot, hl]
            rw [hrw]
            exact h
          · have hrw : langFixRoot (.elem t a cs) = .elem t (a ++ [("lang", "en")]) cs := by
              simp [langFixRoot, hl]
            rw [hrw]
            simp only [FixedFor] at h ⊢
            intro e he htag
            simp only [allElems] at he
            rcases List.mem_cons.mp he with heq | hmem
            · subst heq
              simp only [Node.tagName] at htag
              simp only [Node.hasAttribute, Node.attrs]
              have hbase := h (Node.elem t a cs) (by simp [allElems])
                (by simp only [Node.tagName]; exact htag)
              simp only [Node.hasAttribute, Node.attrs] at hbase
              exact hasAttr_append_left a _ "type" hbase
            · exact h e (by simp [allElems, hmem]) htag
  case missingLangAttribute =>
      cases document with
      | text s => simpa [langFixRoot] using h
      | elem t a cs =>
          by_cases hl : hasAttr a "lang"
          · have hrw : langFixRoot (.elem t a cs) = .elem t a cs := by
              simp [langFixRoot, hl]
            rw [hrw]
            exact h
          · have hrw : langFixRoot (.elem t a cs) = .elem t (a ++ [("lang", "en")]) cs := by
              simp [langFixRoot, hl]
            rw [hrw]
            simp only [FixedFor]
            exact hasAttr_append_single a "lang" "en"
  all_goals trivial

/-- Helper: applying any issue's DOM fix establishes the saturation
state of that issue's type. -/
theorem applyFix_establishes (document : Node) (issue : AccessibilityIssue) (f : Fix) :
    FixedFor issue.type (applyFix document issue f) := by
  cases hty : issue.type
  case missingAltText =>
      simp only [applyFix, hty]
      simp only [FixedFor]
      intro e he htag
      rw [allElems_mapElems altFixAttr document, List.mem_map] at he
      obtain ⟨e0, he0, heq⟩ := he
      obtain ⟨t, a, cs, he0eq⟩ := allElems_shape document e0 he0
      subst he0eq
      subst heq
      simp only [mapElems, Node.tagName] at htag
      simp only [mapElems, Node.hasAttribute, Node.attrs]
      unfold altFixAttr
      rw [htag]
      by_cases hal : hasAttr a "alt"
      · simp [hal]
      · simp [hal, hasAttr_append_single]
  case missingButtonType =>
      simp only [applyFix, hty]
      simp only [FixedFor]
      intro e he htag
      rw [allElems_mapElems typeFixAttr document, List.mem_map] at he
      obtain ⟨e0, he0, heq⟩ := he
      obtain ⟨t, a, cs, he0eq⟩ := allElems_shape document e0 he0
      subst he0eq
      subst heq
      simp only [mapElems, Node.tagName] at htag
      simp only [mapElems, Node.hasAttribute, Node.attrs]
      unfold typeFixAttr
      rw [htag]
      by_cases hal : hasAttr a "type"
      · simp [hal]
      · simp [hal, hasAttr_append_single]
  case missingLangAttribute =>
      simp only [applyFix, hty]
      cases document with
      | text s => simp [FixedFor, langFixRoot]
      | elem t a cs =>
          by_cases hl : hasAttr a "lang"
          · have hrw : langFixRoot (.elem t a cs) = .elem t a cs := by
              simp [langFixRoot, hl]
            rw [hrw]
            simp only [FixedFor]
            exact hl
          · have hrw : langFixRoot (.elem t a cs) = .elem t (a ++ [("lang", "en")]) cs := by
              simp [langFixRoot, hl]
            rw [hrw]
            simp only [FixedFor]
            exact hasAttr_append_single a "lang" "en"
  all_goals trivial

/-- Helper: applying any issue's DOM fix preserves every saturation
state. -/
theorem applyFix_preserves (ty : IssueType) (document : Node)
    (issue : AccessibilityIssue) (f : Fix) (h : FixedFor ty document) :
    FixedFor ty (applyFix document issue f) := by
  cases hty : issue.type
  case missingAltText =>
      simp only [applyFix, hty]
      exact FixedFor_mapElems ty altFixAttr altFixAttr_extends document h
  case missingButtonType =>
      simp only [applyFix, hty]
      exact FixedFor_mapElems ty typeFixAttr typeFixAttr_extends document h
  case missingLangAttribute =>
      simp only [applyFix, hty]
      exact FixedFor_langFixRoot ty document h
  all_goals (simp only [applyFix, hty]; exact h)

/-- Helper: on a document already saturated for the issue's type, the
DOM fix is the identity. -/
theorem applyFix_noop (document : Node) (issue : AccessibilityIssue) (f : Fix)
    (h : FixedFor issue.type document) : applyFix document issue f = document := by
  cases hty : issue.type
  case missingAltText =>
      rw [hty] at h
      simp only [applyFix, hty]
      apply mapElems_id_of
      intro e he t a cs heq
      unfold altFixAttr
      by_cases htag : t = "img"
      · have hal : hasAttr a "alt" = true := by
          have hb := h e he (by rw [heq]; simp only [Node.tagName]; exact htag)
          rw [heq] at hb
          simpa only [Node.hasAttribute, Node.attrs] using hb
        simp [htag, hal]
      · have hf : (t == "img") = false := by simp [htag]
        simp [hf]
  case missingButtonType =>
      rw [hty] at h
      simp only [applyFix, hty]
      apply mapElems_id_of
      intro e he t a cs heq
      unfold typeFixAttr
      by_cases htag : t = "button"
      · have hal : hasAttr a "type" = true := by
          have hb := h e he (by rw [heq]; simp only [Node.tagName]; exact htag)
          rw [heq] at hb
          simpa only [Node.hasAttribute, Node.attrs] using hb
        simp [htag, hal]
      · have hf : (t == "button") = false := by simp [htag]
        simp [hf]
  case missingLangAttribute =>
      rw [hty] at h
      simp only [applyFix, hty]
      cases document with
      | text s => rfl
      | elem t a cs =>
          simp only [FixedFor] at h
          unfold langFixRoot
          simp [h]
  all_goals simp [applyFix, hty]

/-- Helper: one step of the DOM fix loop. -/
theorem fixHTMLDom_cons (d : Node) (i : AccessibilityIssue)
    (is : List AccessibilityIssue) :
    fixHTMLDom d (i :: is)
      = fixHTMLDom (match i.fix with | some f => applyFix d i f | none => d) is := rfl

/-- Helper: the DOM fix loop preserves every saturation state. -/
theorem fixHTMLDom_preserves (ty : IssueType) (issues : List AccessibilityIssue) :
    ∀ d : Node, FixedFor ty d → FixedFor ty (fixHTMLDom d issues) := by
  induction issues with
  | nil => intro d h; exact h
  | cons i is ih =>
      intro d h
      rw [fixHTMLDom_cons]
      apply ih
      cases hf : i.fix with
      | some f => exact applyFix_preserves ty d i f h
      | none => exact h

/-- Helper: after the DOM fix loop, every issue with an attached fix has
its saturation state established. -/
theorem fixHTMLDom_establishes (issues : List AccessibilityIssue) :
    ∀ d : Node, ∀ i ∈ issues, i.fix.isSome = true →
      FixedFor i.type (fixHTMLDom d issues) := by
  induction issues with
  | nil => intro d i hi; simp at hi
  | cons j js ih =>
      intro d i hi hfix
      rw [fixHTMLDom_cons]
      rcases List.mem_cons.mp hi with heq | hmem
      · subst heq
        cases hf : i.fix with
        | none => rw [hf] at hfix; simp at hfix
        | some f => exact fixHTMLDom_preserves i.type js _ (applyFix_establishes d i f)
      · exact ih _ i hmem hfix

/-- Helper: on a document saturated for every attached fix's type, the
DOM fix loop is the identity. -/
theorem fixHTMLDom_noop (issues : List AccessibilityIssue) :
    ∀ d : Node, (∀ i ∈ issues, i.fix.isSome = true → FixedFor i.type d) →
      fixHTMLDom d issues = d := by
  induction issues with
  | nil => intro d _; rfl
  | cons j js ih =>
      intro d h
      rw [fixHTMLDom_cons]
      cases hf : j.fix with
      | none => exact ih d (fun i hi hfix => h i (List.mem_cons_of_mem _ hi) hfix)
      | some f =>
          show fixHTMLDom (applyFix d j f) js = d
          rw [applyFix_noop d j f (h j (List.mem_cons_self _ _) (by rw [hf]; rfl))]
          exact ih d (fun i hi hfix => h i (List.mem_cons_of_mem _ hi) hfix)

/-- C5: fix application is idempotent.  Applying the DOM fix loop a
second time is a no-op; each AST attribute adder (alt, type, aria-label,
form-label) checks for presence before pushing and is idempotent; and
the lang fix applied twice to a lang-less root inserts lang="en" exactly
once. -/
theorem fix_application_idempotent :
    (∀ (document : Node) (issues : List AccessibilityIssue),
        fixHTMLDom (fixHTMLDom document issues) issues = fixHTMLDom document issues)
    ∧ (∀ attributes : List JSXAttrItem,
        addAltAttribute (addAltAttribute attributes) = addAltAttribute attributes
        ∧ addButtonType (addButtonType attributes) = addButtonType attributes
        ∧ addFormLabel (addFormLabel attributes) = addFormLabel attributes)
    ∧ (∀ (parentChildren : List JSXNode) (tagName : String)
        (attributes : List JSXAttrItem),
        addAriaLabel parentChildren tagName (addAriaLabel parentChildren tagName attributes)
          = addAriaLabel parentChildren tagName attributes)
    ∧ (∀ (issue : AccessibilityIssue) (f : Fix) (t : String)
        (a : List (String × String)) (cs : NodeList),
        issue.type = .missingLangAttribute → hasAttr a "lang" = false →
        ((applyFix (applyFix (.elem t a cs) issue f) issue f).attrs.filter
            (fun p => p.1 == "lang")).length = 1) := by
  refine ⟨?_, ?_, ?_, ?_⟩
  · intro document issues
    exact fixHTMLDom_noop issues _
      (fun i hi hfix => fixHTMLDom_establishes issues document i hi hfix)
  · intro attributes
    refine ⟨?_, ?_, ?_⟩
    · by_cases h : attributes.any (fun item =>
        match item with
        | .attr n _ => n == "alt"
        | .spread => false)
      · simp [addAltAttribute, h]
      · simp [addAltAttribute, h, List.any_append]
    · by_cases h : attributes.any (fun item =>
        match item with
        | .attr n _ => n == "type"
        | .spread => false)
      · simp [addButtonType, h]
      · simp [addButtonType, h, List.any_append]
    · by_cases h : attributes.any (fun item =>
        match item with
        | .attr n _ => n == "aria-label" || n == "aria-labelledby" || n == "id"
        | .spread => false)
      · simp [addFormLabel, h]
      · simp [addFormLabel, h, List.any_append]
  · intro parentChildren tagName attributes
    by_cases h : attributes.any (fun item =>
      match item with
      | .attr n _ => n == "aria-label" || n == "aria-labelledby"
      | .spread => false)
    · simp [addAriaLabel, h]
    · simp [addAriaLabel, h, List.any_append]
  · intro issue f t a cs hty hlang
    simp only [applyFix, hty]
    have h1 : langFixRoot (.elem t a cs) = .elem t (a ++ [("lang", "en")]) cs := by
      simp [langFixRoot, hlang]
    have h2 : langFixRoot (.elem t (a ++ [("lang", "en")]) cs)
        = .elem t (a ++ [("lang", "en")]) cs := by
      simp [langFixRoot, hasAttr_append_single a "lang" "en"]
    rw [h1, h2]
    simp only [Node.attrs]
    rw [List.filter_append]
    have hfa : a.filter (fun p => p.1 == "lang") = [] := by
      rw [List.filter_eq_nil_iff]
      intro p hp
      unfold hasAttr at hlang
      have := List.any_eq_false.mp hlang p hp
      simpa using this
    rw [hfa]
    simp

/-- Witness for fix_application_idempotent's lang conjunct at a concrete
issue, fix and lang-less root. -/
theorem fix_application_idempotent_witness :
    (sampleLangIssue.type = IssueType.missingLangAttribute
      ∧ hasAttr [] "lang" = false)
    ∧ ((applyFix (applyFix (Node.elem "html" [] .nil) sampleLangIssue sampleLangFix)
          sampleLangIssue sampleLangFix).attrs.filter (fun p => p.1 == "lang")).length = 1 :=
  ⟨⟨rfl, rfl⟩, fix_application_idempotent.2.2.2 sampleLangIssue sampleLangFix
    "html" [] .nil rfl rfl⟩

/-- C9 counterexample: on the button document, three fixes are generated
(aria-label, button type, lang) but only two change the document when
applied (the HTML applicator has no aria-label case); the orchestrator
still reports fixed = 3, the number generated, not the number applied. -/
theorem fixed_count_overcounts :
    buttonOutcome.result.fixed = 3
    ∧ appliedFixCount (jsdomParse buttonHTML) buttonFixable = 2
    ∧ ¬(buttonOutcome.result.fixed
        = appliedFixCount (jsdomParse buttonHTML) buttonFixable) := by
  refine ⟨by decide, by decide, by decide⟩

/-- C9 amended: the orchestrator writes back only when the fixed output
differs from the input, and the reported fixed count equals the number
of fixable issues (fixes generated) when a write happens and 0
otherwise — it can exceed the number of fixes actually applied. -/
theorem write_back_semantics (loc : Loc) (jsxParse : String → Option (List JSXNode))
    (snip : Snip) (transformJSX : String → List AccessibilityIssue → String)
    (config : Config) (kind : FileKind) (file content : String) :
    ((processFile loc jsxParse snip transformJSX config kind file content).wrote = true →
      (processFile loc jsxParse snip transformJSX config kind file content).output ≠ content)
    ∧ (processFile loc jsxParse snip transformJSX config kind file content).result.fixed
        = (if (processFile loc jsxParse snip transformJSX config kind file content).wrote
           then ((generateFixes {} (scanFileByKind loc jsxParse snip kind content)).filter
              (fun i => i.fix.isSome)).length
           else 0) := by
  constructor
  · intro hw
    dsimp [processFile] at hw ⊢
    have hw' := (Bool.and_eq_true _ _) ▸ hw
    exact bne_iff_ne.mp hw'.2
  · rfl

/-- Witness for write_back_semantics at the concrete button scenario,
where a write does happen. -/
theorem write_back_semantics_witness :
    buttonOutcome.output ≠ buttonHTML :=
  (write_back_semantics locDefault (fun _ => none) (fun _ => "") (fun c _ => c)
    { fix := some true } .html "file.html" buttonHTML).1 (by decide)

end A11y
